import Mathlib

/-!
Verification of the ODIN normalization pipeline (`odinnormalize.py`,
`odinxigt.py`) against its specification.

The Python sources are shallowly embedded: items are records, in-place
mutation becomes explicit state threading, `re` patterns are either
hand-translated (with the derivation recorded in comments) or run through a
small backtracking regex interpreter that mirrors Python's leftmost,
greedy-with-backtracking semantics. Strings are treated as sequences of
characters; the whitespace class is the ASCII part of Python's `\s` (all
texts handled here are ASCII).
-/

namespace Odin

/-! ### String helpers (Python string semantics on `List Char`) -/

/-- ASCII part of Python's whitespace class (`str.strip`, `\s`). -/
def isPySpace (c : Char) : Bool :=
  c = ' ' || c = '\t' || c = '\n' || c = '\x0d' || c = '\x0b' || c = '\x0c'

/-- Python `\w` (ASCII part): letters, digits, underscore. -/
def isWordChar (c : Char) : Bool :=
  c.isAlpha || c.isDigit || c = '_'

/-- Python `s.lstrip()`. -/
def pyLStrip (s : String) : String := ⟨s.data.dropWhile isPySpace⟩

/-- Python `s.rstrip()`. -/
def pyRStrip (s : String) : String := ⟨(s.data.reverse.dropWhile isPySpace).reverse⟩

/-- Python `s.strip()`. -/
def pyStrip (s : String) : String := pyRStrip (pyLStrip s)

/-- Python `sep.join(parts)`. -/
def strJoin (sep : String) : List String → String
  | [] => ""
  | [x] => x
  | x :: rest => x ++ sep ++ strJoin sep rest

/-- Worker for `splitChar`. -/
def splitCharAux (sep : Char) : List Char → List Char → List String
  | [], acc => [⟨acc.reverse⟩]
  | c :: rest, acc =>
    if c = sep then ⟨acc.reverse⟩ :: splitCharAux sep rest []
    else splitCharAux sep rest (c :: acc)

/-- Python `s.split(sep)` for a one-character separator; `"".split(sep) = [""]`. -/
def splitChar (sep : Char) (s : String) : List String := splitCharAux sep s.data []

/-- Python `c in s` for a single character. -/
def containsChar (s : String) (c : Char) : Bool := s.data.contains c

/-- List prefix test (used by the substring test below). -/
def listStartsWith : List Char → List Char → Bool
  | [], _ => true
  | _ :: _, [] => false
  | a :: as, b :: bs => a = b && listStartsWith as bs

/-- Worker for `strIn`. -/
def listIsSub (needle : List Char) : List Char → Bool
  | [] => listStartsWith needle []
  | c :: rest => listStartsWith needle (c :: rest) || listIsSub needle rest

/-- Python `needle in hay` (substring containment). -/
def strIn (needle hay : String) : Bool := listIsSub needle.data hay.data

/-- Python `s[a:b]` for non-negative indices (clamping, by characters). -/
def strSlice (s : String) (a b : Nat) : String := ⟨(s.data.drop a).take (b - a)⟩

/-- Python `s[a:]` for a non-negative index. -/
def strDropN (s : String) (a : Nat) : String := ⟨s.data.drop a⟩

/-- Python `s[:b]` for a non-negative index. -/
def strTakeN (s : String) (b : Nat) : String := ⟨s.data.take b⟩

/-- Worker for `strReplaceAll` (fuel = length of the list). -/
def replaceAllAux (pat rep : List Char) : Nat → List Char → List Char
  | _, [] => []
  | 0, l => l
  | fuel + 1, l =>
    match l with
    | [] => []
    | c :: rest =>
      if pat ≠ [] && listStartsWith pat l then
        rep ++ replaceAllAux pat rep fuel (l.drop pat.length)
      else c :: replaceAllAux pat rep fuel rest

/-- Python `s.replace(pat, rep)`: replace all non-overlapping occurrences,
left to right. -/
def strReplaceAll (s pat rep : String) : String :=
  ⟨replaceAllAux pat.data rep.data s.data.length s.data⟩

/-- A string of `n` spaces (Python `' ' * n`). -/
def strSpaces : Nat → String
  | 0 => ""
  | n + 1 => " " ++ strSpaces n

/-- Python `s.ljust(n)` (pad on the right with spaces). -/
def strLJust (s : String) (n : Nat) : String :=
  s ++ strSpaces (n - s.data.length)

/-- Python `s.upper()` (ASCII). -/
def strUpper (s : String) : String := ⟨s.data.map Char.toUpper⟩

/-- Python `s.lower()` (ASCII). -/
def strLower (s : String) : String := ⟨s.data.map Char.toLower⟩

/-- Lexicographic code-point comparison on char lists (Python `<` on `str`). -/
def lexLt : List Char → List Char → Bool
  | [], [] => false
  | [], _ :: _ => true
  | _ :: _, [] => false
  | a :: as, b :: bs => a < b || (a = b && lexLt as bs)

/-- Python `a < b` on strings. -/
def strLt (a b : String) : Bool := lexLt a.data b.data

/-- Insert a string into a sorted duplicate-free list, keeping it sorted
and duplicate-free. -/
def insertSorted (x : String) : List String → List String
  | [] => [x]
  | y :: rest =>
    if x = y then y :: rest
    else if strLt x y then x :: y :: rest
    else y :: insertSorted x rest

/-- Python `sorted(set(l))` for strings. -/
def sortedDedup (l : List String) : List String :=
  l.foldl (fun acc x => insertSorted x acc) []

/-- Remove the first occurrence of an element (Python `list.remove`; callers
check membership first, so the raising case does not arise). -/
def eraseFirst : List String → String → List String
  | [], _ => []
  | x :: rest, y => if x = y then rest else x :: eraseFirst rest y

/-! ### The data model

xigt `Item`s carry an id, an optional text, and an attribute dictionary.
The pipeline reads/writes the attributes `tag`, `line`, `judgment`, `note`
and the reference attributes `alignment`, `content`, `segmentation` (xigt
exposes the latter three as properties over the same dictionary, so copying
the dictionary copies them as well).  `tag` is modelled as a plain string
with `""` for "absent", which is observationally equivalent to Python's
`attributes.get('tag', '')` everywhere the pipeline looks at it.  `line` is
always present on ODIN data (`merge_items` would raise `KeyError`
otherwise). -/

structure Item where
  id : String
  text : Option String := none
  tag : String := ""
  line : String := ""
  alignment : Option String := none
  content : Option String := none
  segmentation : Option String := none
  judgment : Option String := none
  note : Option String := none
deriving Repr, DecidableEq

/-- `get_tags` from `odinxigt.py`: `item.attributes.get('tag', '').split('+')`. -/
def get_tags (item : Item) : List String := splitChar '+' item.tag

/-- `tags[0]`: the list returned by `split` is never empty. -/
def primaryTag (item : Item) : String := (get_tags item).headD ""

/-- `PRITAGS` from `odinxigt.py`. -/
def PRITAGS : List String :=
  ["L", "G", "T", "L-G", "L-T", "G-T", "L-G-T", "M", "B", "C"]

/-- `copy_items` from `odinxigt.py`: a fresh `Item` is built from each item's
id, type, attributes and text; under value semantics this is the identity. -/
def copy_items (items : List Item) : List Item := items

/-- `remove_blank_items` from `odinxigt.py`: keep items whose
`(i.text or '').strip()` is non-empty. -/
def remove_blank_items (items : List Item) : List Item :=
  items.filter (fun i => pyStrip (i.text.getD "") ≠ "")

/-- `min_indent` from `odinxigt.py`: minimum leading-whitespace width among
items whose primary tag lies in `tags` minus `{M, B}`; `0` if none.
(`re.match(r'\s*', text).end()` is the length of the leading whitespace.) -/
def min_indent (items : List Item) (tags : Option (List String)) : Nat :=
  let tagList := (tags.getD PRITAGS).filter (fun t => t ≠ "M" && t ≠ "B")
  let indents := items.filterMap (fun item =>
    if tagList.contains (primaryTag item) then
      some ((item.text.getD "").data.takeWhile isPySpace).length
    else none)
  match indents with
  | [] => 0
  | x :: rest => rest.foldl Nat.min x

/-- `shift_left` from `odinxigt.py`. -/
def shift_left (items : List Item) (tags : Option (List String)) : List Item :=
  let tagList := (tags.getD PRITAGS).filter (fun t => t ≠ "M" && t ≠ "B")
  let maxshift := min_indent items tags
  items.map (fun item =>
    let t := primaryTag item
    if t = "M" then { item with text := some (pyStrip (item.text.getD "")) }
    else if tagList.contains t then
      { item with text := some (strDropN (item.text.getD "") maxshift) }
    else item)

/-! ### The quote table (`odinnormalize.py` lines 65-93)

Transcribed entry by entry from the source, in source order.  The comma
entry of the source is commented out there (line 68) and therefore absent
here too. -/

def QUOTEPAIRS : List (Char × List Char) :=
  [ ('"', ['"']),                     -- quotation mark (")
    ('\u0027', ['\u0027']),           -- apostrophe
    -- comma (would map to apostrophe and grave): commented out in the source
    ('\u0060', ['\u0027']),           -- grave-accent/apostrophe
    ('«', ['»']),                     -- left/right-pointing double angle
    ('»', ['«', '»']),           -- right/(left|right)-pointing double angle
    ('‘', ['’']),                     -- left/right single quotation mark
    ('’', ['’']),                     -- right single quotation mark
    ('‚', ['‛', '‘', '’']), -- single low-9
    ('‛', ['’']),                     -- single high-reversed-9
    ('“', ['”']),                     -- left/right double quotation mark
    ('”', ['”']),                     -- right double quotation mark
    ('„', ['“', '”']),           -- double low-9
    ('‟', ['”']),                     -- double high-reversed-9
    ('‹', ['›']),                     -- single left/right-pointing angle
    ('›', ['‹', '›']),           -- single right/(left|right)-pointing angle
    ('「', ['」']),                     -- corner bracket
    ('『', ['』']),                     -- white corner bracket
    ('〝', ['〞']),                     -- reversed double prime
    ('〟', ['〞']),                     -- low double prime
    ('﹁', ['﹂']),                     -- vertical corner bracket
    ('﹃', ['﹄']),                     -- vertical corner white bracket
    ('＂', ['＂']),                     -- fullwidth quotation mark
    ('＇', ['＇']),                     -- fullwidth apostrophe
    ('｢', ['｣']) ]                    -- halfwidth corner bracket

/-- `OPENQUOTES = ''.join(QUOTEPAIRS.keys())` (as a character list). -/
def OPENQUOTES : List Char := QUOTEPAIRS.map Prod.fst

/-- `CLOSEQUOTES = ''.join(q for qs in QUOTEPAIRS.values() for q in qs)`. -/
def CLOSEQUOTES : List Char := (QUOTEPAIRS.map Prod.snd).flatten

/-! ### `merge_items` (`odinnormalize.py` lines 185-215) -/

/-- Comma-join of a reference attribute over items, skipping falsy
(`None`/empty) values: `','.join(i.f for i in items if i.f)`. -/
def joinRefs (get : Item → Option String) (items : List Item) : String :=
  strJoin "," (items.filterMap (fun i =>
    match get i with
    | some s => if s = "" then none else some s
    | none => none))

/-- The message of the `ValueError` raised by `merge_items`. -/
def mergeConflictMsg : String :=
  "Cannot merge items defining segmentation and another reference attribute."

/-- State-passing rendering of `merge_items(*items)`.  Python mutates
`items[0]` in place and raises without undoing prior writes; in the source
the conflict check precedes every write, so on the conflict error the
returned state is the input unchanged.  The returned pair is (raised error,
state of the argument items after the call). -/
def merge_items_run (items : List Item) : Option String × List Item :=
  let alignment := joinRefs (fun i => i.alignment) items
  let content := joinRefs (fun i => i.content) items
  let segmentation := joinRefs (fun i => i.segmentation) items
  if segmentation ≠ "" && (alignment ≠ "" || content ≠ "") then
    (some mergeConflictMsg, items)
  else
    match items with
    | [] => (some "IndexError: list index out of range", items)
    | base :: rest =>
      let text := strJoin " " ((base :: rest).map (fun i => i.text.getD ""))
      let line := strJoin " " ((base :: rest).map (fun i => i.line))
      let priTags := (base :: rest).foldl (fun acc i =>
        let t := primaryTag i
        if t = "" then acc else acc ++ [t]) []
      let secTags := (base :: rest).foldl (fun acc i =>
        acc ++ (get_tags i).drop 1) []
      let tag0 := strReplaceAll (strJoin "-" (sortedDedup priTags)) "G-L" "L-G"
      let tag :=
        if sortedDedup secTags ≠ [] then
          tag0 ++ "+" ++ strJoin "+" (sortedDedup secTags)
        else tag0
      (none,
       { base with
         text := some text
         line := line
         alignment := if alignment ≠ "" then some alignment else base.alignment
         content := if content ≠ "" then some content else base.content
         segmentation := if segmentation ≠ "" then some segmentation else base.segmentation
         tag := tag } :: rest)

/-- `merge_items(first, *rest)` as used by the pipeline: the merged base item
on success (callers keep only the base and drop the other inputs). -/
def merge_items (first : Item) (rest : List Item) : Except String Item :=
  match merge_items_run (first :: rest) with
  | (some e, _) => .error e
  | (none, merged :: _) => .ok merged
  | (none, []) => .error "unreachable"

/-! ### `rejoin_continuations` (`odinnormalize.py` lines 218-228) -/

/-- Worker: `accRev` is the reversed `new_items`. -/
def rejoin_continuations_aux : List Item → List Item → Except String (List Item)
  | [], accRev => .ok accRev.reverse
  | item :: rest, accRev =>
    if primaryTag item = "C" && !accRev.isEmpty then
      match accRev with
      | prev :: accRest => do
        let item2 := { item with
          text := some (pyLStrip (item.text.getD ""))
          tag := strDropN item.tag 1 }
        let merged ← merge_items prev [item2]
        rejoin_continuations_aux rest (merged :: accRest)
      | [] => .error "unreachable"
    else
      rejoin_continuations_aux rest (item :: accRev)

/-- `rejoin_continuations`: an item whose primary tag is exactly `C`, with a
preceding retained item, is left-stripped, loses the first character of its
tag (the `C`), and is merged into the preceding retained item. -/
def rejoin_continuations (items : List Item) : Except String (List Item) :=
  rejoin_continuations_aux items []

/-! ### A small backtracking regex interpreter

Python's `re` performs a backtracking search: alternation prefers the left
branch, quantifiers are greedy, `search` tries start positions left to
right, and the first complete match in that order wins.  The interpreter
below returns, for a pattern at a position, the list of possible
(end-position, captured-groups) outcomes in exactly that preference order;
the head of the list is Python's match.  Named groups are represented by
their positional index (recorded next to each transcribed pattern).  A fuel
argument bounds the recursion depth; it is chosen generously and all uses
in the theorems below either evaluate on concrete inputs or take the
matcher's result as a hypothesis. -/

/-- One constituent of a character class. -/
inductive ClsAtom where
  | ch (c : Char)
  | range (lo hi : Char)
  | digit
  | word
  | space
deriving Repr, DecidableEq

/-- Regex abstract syntax (the fragment used by `odinnormalize.py`):
literals, classes, `.`, sequencing, alternation, greedy `* ? {lo,hi}`,
capturing groups, conditionals `(?(idx)yes|no)`, anchors and `\b`. -/
inductive RE where
  | eps
  | lit (c : Char)
  | cls (neg : Bool) (atoms : List ClsAtom)
  | anyc
  | seq (a b : RE)
  | alt (a b : RE)
  | star (r : RE)
  | rep (lo hi : Nat) (r : RE)
  | opt (r : RE)
  | group (idx : Nat) (r : RE)
  | cond (idx : Nat) (yes no : RE)
  | bol
  | eol
  | wordb
deriving Repr

/-- Case-insensitive character comparison (ASCII, for `re.I`). -/
def charEqCI (ci : Bool) (a b : Char) : Bool :=
  a = b || (ci && a.toLower = b.toLower)

/-- Does a character match one class atom (with `re.I` handling)? -/
def atomMatch (ci : Bool) (c : Char) : ClsAtom → Bool
  | .ch d => charEqCI ci c d
  | .range lo hi =>
    (lo ≤ c && c ≤ hi)
      || (ci && ((lo ≤ c.toLower && c.toLower ≤ hi)
                 || (lo ≤ c.toUpper && c.toUpper ≤ hi)))
  | .digit => c.isDigit
  | .word => isWordChar c
  | .space => isPySpace c

/-- Captured-group lookup: entries are `(index, start, stop)`, newest first
(matching Python, where a re-captured group overwrites its old span). -/
def gLookup (g : List (Nat × Nat × Nat)) (idx : Nat) : Option (Nat × Nat) :=
  match g.find? (fun e => e.1 = idx) with
  | some (_, s, e) => some (s, e)
  | none => none

/-- The backtracking interpreter: all `(end, groups)` outcomes of matching
`r` at `pos`, in Python's preference order.  Greedy quantifiers emit the
longer continuations first; a quantifier iteration that matches without
consuming input terminates the iteration (as Python's repeat logic does). -/
def reRun (ci : Bool) (s : List Char) :
    Nat → RE → Nat → List (Nat × Nat × Nat) → List (Nat × List (Nat × Nat × Nat))
  | 0, _, _, _ => []
  | fuel + 1, r, pos, g =>
    match r with
    | .eps => [(pos, g)]
    | .lit c =>
      match s.get? pos with
      | some d => if charEqCI ci d c then [(pos + 1, g)] else []
      | none => []
    | .cls neg atoms =>
      match s.get? pos with
      | some d => if (atoms.any (atomMatch ci d)) != neg then [(pos + 1, g)] else []
      | none => []
    | .anyc =>
      match s.get? pos with
      | some d => if d = '\n' then [] else [(pos + 1, g)]
      | none => []
    | .seq a b =>
      (reRun ci s fuel a pos g).flatMap (fun pg => reRun ci s fuel b pg.1 pg.2)
    | .alt a b => reRun ci s fuel a pos g ++ reRun ci s fuel b pos g
    | .opt r1 => reRun ci s fuel r1 pos g ++ [(pos, g)]
    | .star r1 =>
      ((reRun ci s fuel r1 pos g).filter (fun pg => pos < pg.1)).flatMap
          (fun pg => reRun ci s fuel (.star r1) pg.1 pg.2)
        ++ [(pos, g)]
    | .rep lo hi r1 =>
      if hi = 0 then [(pos, g)]
      else
        ((reRun ci s fuel r1 pos g).flatMap (fun pg =>
            if pos < pg.1 then reRun ci s fuel (.rep (lo - 1) (hi - 1) r1) pg.1 pg.2
            else [pg]))
          ++ (if lo = 0 then [(pos, g)] else [])
    | .group idx r1 =>
      (reRun ci s fuel r1 pos g).map (fun pg => (pg.1, (idx, pos, pg.1) :: pg.2))
    | .cond idx y n =>
      if (gLookup g idx).isSome then reRun ci s fuel y pos g
      else reRun ci s fuel n pos g
    | .bol => if pos = 0 then [(pos, g)] else []
    | .eol =>
      if pos = s.length then [(pos, g)]
      else if pos + 1 = s.length && s.get? pos = some '\n' then [(pos, g)]
      else []
    | .wordb =>
      let w1 := if pos = 0 then false
                else match s.get? (pos - 1) with
                     | some c => isWordChar c
                     | none => false
      let w2 := match s.get? pos with
                | some c => isWordChar c
                | none => false
      if w1 != w2 then [(pos, g)] else []

/-- A match: overall span plus captured groups. -/
structure RMatch where
  start : Nat
  stop : Nat
  groups : List (Nat × Nat × Nat)
deriving Repr, DecidableEq

/-- Fuel bound for the interpreter, ample for the patterns in this file. -/
def reFuel (s : List Char) : Nat := (s.length + 2) * 600

/-- Python `pattern.match(text)`: anchored at position 0. -/
def reMatchAt (r : RE) (ci : Bool) (str : String) : Option RMatch :=
  match reRun ci str.data (reFuel str.data) r 0 [] with
  | [] => none
  | (e, g) :: _ => some ⟨0, e, g⟩

/-- Worker for `reSearch`: try start positions left to right. -/
def reSearchFrom (r : RE) (ci : Bool) (s : List Char) : Nat → Nat → Option RMatch
  | 0, _ => none
  | cd + 1, pos =>
    match reRun ci s (reFuel s) r pos [] with
    | (e, g) :: _ => some ⟨pos, e, g⟩
    | [] => if s.length ≤ pos then none else reSearchFrom r ci s cd (pos + 1)

/-- Python `pattern.search(text)`: leftmost match. -/
def reSearch (r : RE) (ci : Bool) (str : String) : Option RMatch :=
  reSearchFrom r ci str.data (str.data.length + 1) 0

/-- Python `m.group(idx)` as a substring of the searched text (`none` when
the group did not participate in the match). -/
def groupStr (str : String) (m : RMatch) (idx : Nat) : Option String :=
  (gLookup m.groups idx).map (fun se => strSlice str se.1 se.2)

/-- Python `m.group(0)`. -/
def matchStr (str : String) (m : RMatch) : String := strSlice str m.start m.stop

/-- Worker for `reFindAll`: scan non-overlapping matches left to right,
stepping one position past an empty match (Python's `finditer`). -/
def reFindAllFrom (r : RE) (ci : Bool) (s : List Char) : Nat → Nat → List RMatch
  | 0, _ => []
  | cd + 1, pos =>
    if s.length < pos then []
    else
      match reRun ci s (reFuel s) r pos [] with
      | (e, g) :: _ =>
        ⟨pos, e, g⟩ :: reFindAllFrom r ci s cd (if e = pos then pos + 1 else e)
      | [] => if s.length ≤ pos then [] else reFindAllFrom r ci s cd (pos + 1)

/-- Python `pattern.finditer(text)` (as a list). -/
def reFindAll (r : RE) (ci : Bool) (str : String) : List RMatch :=
  reFindAllFrom r ci str.data (str.data.length + 2) 0

/-- Worker for `reSubAll`: glue unreplaced gaps and replacements. -/
def subBuild (str : String) (repl : String → RMatch → String) :
    Nat → List RMatch → List Char
  | pos, [] => str.data.drop pos
  | pos, m :: rest =>
    (strSlice str pos m.start).data ++ (repl str m).data ++ subBuild str repl m.stop rest

/-- Python `pattern.sub(repl, text)`: replace every non-overlapping match. -/
def reSubAll (r : RE) (ci : Bool) (repl : String → RMatch → String) (str : String) :
    String :=
  ⟨subBuild str repl 0 (reFindAll r ci str)⟩

/-- The `whitespace` replacement callback of `odinnormalize.py`: a run of
spaces as long as the match. -/
def whitespaceRepl (_str : String) (m : RMatch) : String := strSpaces (m.stop - m.start)

/-- Constant empty replacement (Python `sub('', ...)`). -/
def emptyRepl (_str : String) (_m : RMatch) : String := ""

/-- Sequence a list of regexes. -/
def rseq : List RE → RE
  | [] => .eps
  | [r] => r
  | r :: rest => .seq r (rseq rest)

/-- Alternation of a list of regexes, preferring earlier entries. -/
def ralt : List RE → RE
  | [] => .cls false []
  | [r] => r
  | r :: rest => .alt r (ralt rest)

/-- A literal string. -/
def rlits (str : String) : RE := rseq (str.data.map RE.lit)

/-- A positive character class of single characters. -/
def rcls (cs : List Char) : RE := .cls false (cs.map ClsAtom.ch)

/-- A negated character class of single characters. -/
def rncls (cs : List Char) : RE := .cls true (cs.map ClsAtom.ch)

/-- `\s`. -/
def rsp : RE := .cls false [.space]

/-- `\S`. -/
def rnsp : RE := .cls true [.space]

/-- `\w`. -/
def rw : RE := .cls false [.word]

/-- `r+`. -/
def rplus (r : RE) : RE := .seq r (.star r)

/-! ### Transcribed patterns from `odinnormalize.py`

Each pattern is transcribed constructor for constructor from the source,
with named groups replaced by their positional index. -/

/-- `citation_re` (source lines 254-263):
`(\s{3}( [-a-zA-Z]+){1,4} ?|=?)` (groups 1,2) followed by either
`\[(?P<inner1>([^\]]*(\([^\)]*\))?)[0-9]*([^\]]*(\([^)]*\))?))\]`
(inner1 = group 4, subgroups 5-8) or the same with parentheses
(inner2 = group 9, subgroups 10-13), then `\s*$`. -/
def citation_re : RE :=
  rseq [
    .group 1 (.alt
      (rseq [.rep 3 3 rsp,
             .rep 1 4 (.group 2 (rseq [.lit ' ',
               rplus (.cls false [.ch '-', .range 'a' 'z', .range 'A' 'Z'])])),
             .opt (.lit ' ')])
      (.opt (.lit '='))),
    .group 3 (.alt
      (rseq [.lit '[',
             .group 4 (rseq [
               .group 5 (rseq [.star (rncls [']']),
                 .opt (.group 6 (rseq [.lit '(', .star (rncls [')']), .lit ')']))]),
               .star (.cls false [.range '0' '9']),
               .group 7 (rseq [.star (rncls [']']),
                 .opt (.group 8 (rseq [.lit '(', .star (rncls [')']), .lit ')']))])]),
             .lit ']'])
      (rseq [.lit '(',
             .group 9 (rseq [
               .group 10 (rseq [.star (rncls [')']),
                 .opt (.group 11 (rseq [.lit '(', .star (rncls [')']), .lit ')']))]),
               .star (.cls false [.range '0' '9']),
               .group 12 (rseq [.star (rncls [')']),
                 .opt (.group 13 (rseq [.lit '(', .star (rncls [')']), .lit ')']))])]),
             .lit ')'])),
    .star rsp, .eol]

/-- The speaker/label marker pattern of `rejoin_translations` (line 241):
`^\s*[(\[]?\s*\S+\s*\.?\s*[)\]]?\s*:`. -/
def trans_marked_re : RE :=
  rseq [.bol, .star rsp, .opt (rcls ['(', '[']), .star rsp, rplus rnsp,
        .star rsp, .opt (.lit '.'), .star rsp, .opt (rcls [')', ']']),
        .star rsp, .lit ':']

/-- The closing-quote-at-end pattern of `rejoin_translations` (line 249):
`[{CLOSEQUOTES}] *\)* *$`. -/
def trans_end_re : RE :=
  rseq [rcls CLOSEQUOTES, .star (.lit ' '), .star (.lit ')'),
        .star (.lit ' '), .eol]

/-- The quoted-interior pattern of `remove_citations.removable` (line 281):
`\s*[{OPENQUOTES}].*[{CLOSEQUOTES}]\s*$` (used with `re.match`). -/
def cit_inner_quote_re : RE :=
  rseq [.star rsp, rcls OPENQUOTES, .star .anyc, rcls CLOSEQUOTES,
        .star rsp, .eol]

/-- `ex_num_re` (source lines 369-380, flags `re.I`):
`^(?P<exnum>\s*(?P<paren>[(\[])?\s*(?P<pre>ex|\w)?`
`(?(pre)[\d.]+|([\d.]+\w?|\w|[ivxlc]+))(?(paren)[\'.]*|[\'.)])`
`(?(paren)\s*[)\]]))\s` with exnum = group 1, paren = group 2,
pre = group 3, and the unnamed alternative group = group 4. -/
def ex_num_re : RE :=
  rseq [.bol,
    .group 1 (rseq [
      .star rsp,
      .opt (.group 2 (rcls ['(', '['])),
      .star rsp,
      .opt (.group 3 (.alt (rlits "ex") rw)),
      .cond 3 (rplus (.cls false [.digit, .ch '.']))
              (.group 4 (ralt [
                 rseq [rplus (.cls false [.digit, .ch '.']), .opt rw],
                 rw,
                 rplus (rcls ['i', 'v', 'x', 'l', 'c'])])),
      .cond 2 (.star (rcls ['\u0027', '.']))
              (rcls ['\u0027', '.', ')']),
      .cond 2 (rseq [.star rsp, rcls [')', ']']]) .eps]),
    rsp]

/-- The morpheme-boundary pattern of `rejoin_hyphenated_grams` (line 426):
`(\S*(?:\s*[{delims}]\s*\S*)+)`. -/
def hyphen_re (delims : List Char) : RE :=
  .group 1 (rseq [.star rnsp,
    rplus (rseq [.star rsp, rcls delims, .star rsp, .star rnsp])])

/-- `start_lg_re` of `remove_language_name` (lines 336-337):
`^\s*[(\[]?({tok1|...|tokn})[)\]]?` with the tokens `re.escape`d
(hence plain literals). -/
def start_lg_re (toks : List String) : RE :=
  rseq [.bol, .star rsp, .opt (rcls ['(', '[']),
        .group 1 (ralt (toks.map rlits)), .opt (rcls [')', ']'])]

/-- `end_lg_re` of `remove_language_name` (lines 338-339):
`[(\[]?({tok1|...|tokn})[)\]]?\s*$`. -/
def end_lg_re (toks : List String) : RE :=
  rseq [.opt (rcls ['(', '[']), .group 1 (ralt (toks.map rlits)),
        .opt (rcls [')', ']']), .star rsp, .eol]

/-- `basic_quoted_trans_re` (source lines 455-461, flags `re.I`):
`((?P<cm>,)|(?P<oq>[{oq}]))(s\' \w|\'\w|," |[^{cq}{oq}])+`
`((?(oq)([{cq}]|[^{oq}]*|\s*$)|(?(cm)[{cq}`]|[^{oq}]*)))`
with cm = group 2, oq = group 3, the repeated content group = 4,
the tail group = 5 and its inner group = 6. -/
def basic_quoted_trans_re : RE :=
  rseq [
    .group 1 (.alt (.group 2 (.lit ',')) (.group 3 (rcls OPENQUOTES))),
    rplus (.group 4 (ralt [
      rseq [.lit 's', .lit '\u0027', .lit ' ', rw],
      rseq [.lit '\u0027', rw],
      rseq [.lit ',', .lit '"', .lit ' '],
      rncls (CLOSEQUOTES ++ OPENQUOTES)])),
    .group 5 (.cond 3
      (.group 6 (ralt [rcls CLOSEQUOTES, .star (rncls OPENQUOTES),
                       rseq [.star rsp, .eol]]))
      (.cond 2 (rcls (CLOSEQUOTES ++ ['\u0060'])) (.star (rncls OPENQUOTES))))]

/-- `pre_trans_re` (source lines 463-476, flags `re.I`):
`(?P<s>\s*,?(?P<open>[(\[])?\s*(?P<pre>(?: *[^{oq} (:,]*){1,3})`
`(?P<delim>[:=.])?\s*)(?P<t>((?P<cm>,)|(?P<oq>[{oq}]))`
`(s\' \w|\'\w|," |[^{cq}{oq}])+`
`((?(oq)([{cq}]|[^{oq}]*|\s*$)|(?(cm)[{cq}`]|[^{oq}]*)))`
`|(?(delim)(?(open)[^)\]]+|[^(\[]+)))`
with s = 1, open = 2, pre = 3, delim = 4, t = 5, the cm/oq wrapper = 6,
cm = 7, oq = 8, the content group = 9, the tail group = 10 and its
inner group = 11. -/
def pre_trans_re : RE :=
  rseq [
    .group 1 (rseq [
      .star rsp, .opt (.lit ','),
      .opt (.group 2 (rcls ['(', '['])),
      .star rsp,
      .group 3 (.rep 1 3 (rseq [.star (.lit ' '),
        .star (rncls (OPENQUOTES ++ [' ', '(', ':', ',']))])),
      .opt (.group 4 (rcls [':', '=', '.'])),
      .star rsp]),
    .group 5 (.alt
      (rseq [
        .group 6 (.alt (.group 7 (.lit ',')) (.group 8 (rcls OPENQUOTES))),
        rplus (.group 9 (ralt [
          rseq [.lit 's', .lit '\u0027', .lit ' ', rw],
          rseq [.lit '\u0027', rw],
          rseq [.lit ',', .lit '"', .lit ' '],
          rncls (CLOSEQUOTES ++ OPENQUOTES)])),
        .group 10 (.cond 8
          (.group 11 (ralt [rcls CLOSEQUOTES, .star (rncls OPENQUOTES),
                            rseq [.star rsp, .eol]]))
          (.cond 7 (rcls (CLOSEQUOTES ++ ['\u0060']))
                   (.star (rncls OPENQUOTES))))])
      (.cond 4 (.cond 2 (rplus (rncls [')', ']'])) (rplus (rncls ['(', '['])))
               .eps))]

/-- The alternate-translation marker of `separate_secondary_translations`
(line 512): `(or|also|ii+|\b[bcd]\.)[ :,]` (used with `re.search`, no
flags). -/
def alt_marker_re : RE :=
  rseq [.group 1 (ralt [rlits "or", rlits "also",
                        rseq [.lit 'i', rplus (.lit 'i')],
                        rseq [.wordb, rcls ['b', 'c', 'd'], .lit '.']]),
        rcls [' ', ':', ',']]

/-! ### `rejoin_translations` (`odinnormalize.py` lines 231-251) -/

/-- Worker: `accRev` is the reversed `new_items`; `prevIsT` is only updated
on the non-merging branch (as in the source), `prevEnd` on every step from
the current item's (possibly left-stripped) text. -/
def rejoin_translations_go :
    List Item → List Item → Bool → Bool → Except String (List Item)
  | [], accRev, _, _ => .ok accRev.reverse
  | item :: rest, accRev, prevIsT, prevEnd =>
    let tags := get_tags item
    let isT := tags.headD "" = "T" && !tags.contains "DB" && !tags.contains "CR"
    let marked := reMatchAt trans_marked_re false (item.text.getD "")
    if prevIsT && isT && marked.isNone && !prevEnd then
      match accRev with
      | prev :: accRest => do
        let item2 := { item with text := some (pyLStrip (item.text.getD "")) }
        let merged ← merge_items prev [item2]
        let endM := reSearch trans_end_re false (item2.text.getD "")
        rejoin_translations_go rest (merged :: accRest) prevIsT endM.isSome
      | [] => .error "unreachable"
    else
      let endM := reSearch trans_end_re false (item.text.getD "")
      rejoin_translations_go rest (item :: accRev) isT endM.isSome

/-- `rejoin_translations`: consecutive unmarked translation lines are
merged unless the previous line ended in a closing quote. -/
def rejoin_translations (items : List Item) : Except String (List Item) :=
  rejoin_translations_go items [] false false

/-! ### `remove_citations` (`odinnormalize.py` lines 254-313) -/

/-- Python `items[i+1:]`. -/
def sliceAfter (items : List Item) (i : Nat) : List Item := items.drop (i + 1)

/-- Python `items[i-1::-1]` for a valid non-negative index `i`: for
`i ≥ 1` the elements before `i` reversed; for `i = 0` the start index is
`-1`, i.e. the last element, so the whole list reversed. -/
def backFrom (items : List Item) (i : Nat) : List Item :=
  if i = 0 then items.reverse else (items.take i).reverse

/-- Python `items[i-1:]` for a valid non-negative index `i`: for `i ≥ 1`
the elements from `i-1` on; for `i = 0` the start index is `-1`, i.e. a
singleton of the last element (empty list when `items` is empty). -/
def fromBefore (items : List Item) (i : Nat) : List Item :=
  if i = 0 then
    match items.getLast? with
    | some x => [x]
    | none => []
  else items.drop (i - 1)

/-- `remove_citations.removable(m, t, i)` (lines 266-285), with the match
represented by its span `(mStart, mStop)` and its
`m.group('inner1') or m.group('inner2')` string `inner`.  For `t = 'L'` the
complementary `G` is sought in `items[i+1:] + items[i-1::-1]`; for
`t = 'G'` the complementary `L` is sought in `items[i-1:] + items[i-1::-1]`
(exactly as written in the source).  `items` is the live, partially
modified list the Python closure reads. -/
def cit_removable (items : List Item) (mStart mStop : Nat) (inner : String)
    (t : String) (i : Nat) : Bool :=
  if t = "L" || t = "G" then
    let others :=
      if t = "L" then sliceAfter items i ++ backFrom items i
      else fromBefore items i ++ backFrom items i
    let t2 := if t = "L" then "G" else "L"
    match others.find? (fun o => primaryTag o = t2) with
    | some other =>
      if pyStrip (strSlice (other.text.getD "") mStart mStop) ≠ "" then false
      else true
    | none => true
  else if (reMatchAt cit_inner_quote_re false inner).isSome then false
  else true

/-- `m.group('inner1') or m.group('inner2')` of a `citation_re` match:
inner1 (group 4) if it matched non-empty, else inner2 (group 9).  (When
both are falsy Python would go on to call `re.match(None)` and raise; that
case never occurs on the inputs below.) -/
def citInner (text : String) (m : RMatch) : String :=
  match groupStr text m 4 with
  | some s => if s ≠ "" then s else (groupStr text m 9).getD ""
  | none => (groupStr text m 9).getD ""

/-- Worker for `remove_citations`: `arr` is the live item list that the
Python loop both iterates and mutates (`removable` reads it through the
closure), `i` the loop index, `accRev` the reversed `new_items`. -/
def remove_citations_go : List Item → Nat → List Item → Nat → List Item
  | _, _, accRev, 0 => accRev.reverse
  | arr, i, accRev, countdown + 1 =>
    match arr.get? i with
    | none => accRev.reverse
    | some item =>
      let tags := get_tags item
      if !(["L", "G", "T", "L-G", "L-T", "L-G-T"].contains (tags.headD "")) then
        remove_citations_go arr (i + 1) (item :: accRev) countdown
      else
        match reSearch citation_re false (item.text.getD "") with
        | none => remove_citations_go arr (i + 1) (item :: accRev) countdown
        | some m =>
          if cit_removable arr m.start m.stop (citInner (item.text.getD "") m)
               (tags.headD "") i then
            let text := item.text.getD ""
            let newText := pyRStrip (reSubAll citation_re false emptyRepl text)
            let moved :=
              if tags.contains "AC" then some "AC"
              else if tags.contains "LN" then some "LN"
              else if tags.contains "CN" then some "CN"
              else none
            let tags2 := match moved with
              | some f => eraseFirst tags f
              | none => tags
            let mTags := "M" :: moved.toList
            let item2 := { item with
              text := some newText, tag := strJoin "+" tags2 }
            let meta := { item with
              text := some (pyStrip (matchStr text m)), tag := strJoin "+" mTags }
            remove_citations_go (arr.set i item2) (i + 1)
              (meta :: item2 :: accRev) countdown
          else remove_citations_go arr (i + 1) (item :: accRev) countdown

/-- `remove_citations`: a trailing bracketed span is split off as an `M`
item when the `removable` test passes; at most one of `AC`/`LN`/`CN` moves
to the `M` item. -/
def remove_citations (items : List Item) : List Item :=
  remove_citations_go items 0 [] items.length

/-! ### `remove_language_name` (`odinnormalize.py` lines 316-366) -/

/-- Deduplicate strings, keeping first occurrences. -/
def dedupStr : List String → List String
  | [] => []
  | x :: rest => x :: (dedupStr rest).filter (fun y => y ≠ x)

/-- Python `re.split(r'[- ]+', s)` (the `re.U` passed positionally is a
`maxsplit` of 32, irrelevant for the short names involved). -/
def splitDashSpace (s : String) : List String :=
  let raw := s.data.foldr (fun c acc =>
    if c = '-' || c = ' ' then [] :: acc
    else match acc with
      | g :: rest => (c :: g) :: rest
      | [] => [[c]]) [[]]
  -- collapse runs of delimiters: `[- ]+` produces no empty interior pieces
  let pieces := raw.map (fun g => (⟨g⟩ : String))
  match pieces with
  | [] => [""]
  | first :: rest => first :: rest.filter (fun p => p ≠ "")

/-- The candidate token list of `remove_language_name` (lines 320-333).
Python builds the code tokens through a `set`, whose iteration order is
unspecified; any fixed order is a faithful refinement for the claims below
(which only exercise the empty-token branch), and we use
first-occurrence order of original/upper/lower. -/
def buildLgToks (lgcode lgname : Option String) : List String :=
  let codeToks :=
    match lgcode with
    | some code =>
      if code ≠ "" && !containsChar code '?' && !containsChar code '*' then
        let codes := dedupStr (splitChar ':' code)
        dedupStr (codes ++ codes.map strUpper ++ codes.map strLower)
      else []
    | none => []
  let nameToks :=
    match lgname with
    | some name =>
      if name ≠ "" && !containsChar name '?' then
        [name, strUpper name]
          ++ (if containsChar name '-' || containsChar name ' ' then
                [⟨(splitDashSpace name).map (fun p => p.data.headD ' ')⟩]
              else [])
          ++ (if (name.data.take 3).length = 3 && (name.data.take 3).all isWordChar
              then [strTakeN name 3] else [])
      else []
    | none => []
  codeToks ++ nameToks

/-- Per-item body of the `remove_language_name` loop: returns the modified
item, an optional leading `M+LN` item (inserted right after the item in
`new_items`) and an optional trailing `M+LN` item (appended to the list the
loop iterates, hence ending up after all original items). -/
def lg_process_item (toks : List String) (item : Item) :
    Item × Option Item × Option Item :=
  let tags := get_tags item
  if tags.headD "" ≠ "M" then
    let orig := item.text.getD ""
    let sRe := start_lg_re toks
    let eRe := end_lg_re toks
    let (text1, meta1) :=
      match reMatchAt sRe false orig with
      | some m =>
        (reSubAll sRe false whitespaceRepl orig,
         some { item with text := some (pyStrip (matchStr orig m)), tag := "M+LN" })
      | none => (orig, none)
    let (text2, meta2) :=
      match reSearch eRe false text1 with
      | some m =>
        (pyRStrip (reSubAll eRe false whitespaceRepl text1),
         some { item with text := some (pyStrip (matchStr text1 m)), tag := "M+LN" })
      | none => (text1, none)
    let item2 := { item with text := some text2 }
    let item3 :=
      if tags.contains "LN" && text2 ≠ orig then
        { item2 with tag := strJoin "+" (eraseFirst tags "LN") }
      else item2
    (item3, meta1, meta2)
  else (item, none, none)

/-- Worker for `remove_language_name`: thread (`new_items` reversed,
deferred trailing metas).  In Python the loop iterates the input list while
appending the trailing metas to it; those appended items have primary tag
`M`, are skipped by the body, and are simply appended to `new_items` at the
end, which is what gluing the deferred list at the end reproduces. -/
def remove_language_name_go (toks : List String) :
    List Item → List Item → List Item → List Item
  | [], accRev, deferred => accRev.reverse ++ deferred
  | item :: rest, accRev, deferred =>
    let (item3, meta1, meta2) := lg_process_item toks item
    let accRev2 := match meta1 with
      | some meta => meta :: item3 :: accRev
      | none => item3 :: accRev
    let deferred2 := match meta2 with
      | some meta => deferred ++ [meta]
      | none => deferred
    remove_language_name_go toks rest accRev2 deferred2

/-- `remove_language_name`: strip a leading/trailing language-name token,
emitting `M+LN` items.  With no usable metadata the stage is the
identity (`new_items = items`). -/
def remove_language_name (items : List Item) (lgcode lgname : Option String) :
    List Item :=
  let lgtoks := buildLgToks lgcode lgname
  if lgtoks = [] then items
  else remove_language_name_go lgtoks items [] []

/-! ### `remove_example_numbers` (`odinnormalize.py` lines 369-407) -/

/-- `remove_example_numbers.removable(m)` (lines 385-396): the match span
with `end -= 1` (dropping the required final space) and
`mtext = m.group('exnum')`; every item with a relevant primary tag must
show, at the same offsets, either exactly `mtext` or blank text.  `items`
is the live list (earlier items may already be blanked). -/
def ex_removable (items : List Item) (mStart mStop : Nat) (mtext : String) : Bool :=
  items.all (fun item =>
    let tags := get_tags item
    if !(["L", "G", "T", "L-G", "G-T", "L-T", "L-G-T"].contains (tags.headD ""))
    then true
    else
      let text := strSlice (item.text.getD "") mStart (mStop - 1)
      text = mtext || pyStrip text = "")

/-- The `while m and removable(m)` loop for one single-role item at index
`i` (lines 403-406); each blanking pass replaces at least one non-space
character by spaces, so the non-space count bounds the iterations. -/
def exnum_strip_loop (i : Nat) : List Item → Nat → List Item
  | arr, 0 => arr
  | arr, fuel + 1 =>
    match arr.get? i with
    | none => arr
    | some item =>
      let text := item.text.getD ""
      match reMatchAt ex_num_re true text with
      | some m =>
        if ex_removable arr m.start m.stop ((groupStr text m 1).getD "") then
          exnum_strip_loop i
            (arr.set i
              { item with text := some (reSubAll ex_num_re true whitespaceRepl text) })
            fuel
        else arr
      | none => arr

/-- Worker for `remove_example_numbers` over the live list. -/
def remove_example_numbers_go : List Item → Nat → Nat → List Item
  | arr, _, 0 => arr
  | arr, i, countdown + 1 =>
    match arr.get? i with
    | none => arr
    | some item =>
      let t := primaryTag item
      let arr2 :=
        if ["L-G", "L-T", "G-T", "L-G-T"].contains t then
          arr.set i
            { item with
              text := some (reSubAll ex_num_re true whitespaceRepl (item.text.getD "")) }
        else if ["L", "G", "T"].contains t then
          exnum_strip_loop i arr
            (((item.text.getD "").data.filter (fun c => !isPySpace c)).length + 1)
        else arr
      remove_example_numbers_go arr2 (i + 1) countdown

/-- `remove_example_numbers`: blank out leading example-number tokens
(replacing them by equal-length runs of spaces). -/
def remove_example_numbers (items : List Item) : List Item :=
  remove_example_numbers_go items 0 items.length

/-! ### `rejoin_hyphenated_grams` (`odinnormalize.py` lines 416-436) -/

/-- Rebuild the text with spaces deleted inside every match
(`text[start:end].replace(' ', '')`). -/
def hyphen_build (text : String) : Nat → List RMatch → List Char
  | pos, [] => text.data.drop pos
  | pos, m :: rest =>
    (strSlice text pos m.start).data
      ++ ((strSlice text m.start m.stop).data.filter (fun c => c ≠ ' '))
      ++ hyphen_build text m.stop rest

/-- `rejoin_hyphenated_grams`: collapse spaces around morpheme delimiters
(`-`/`=` for `L` and `L-G`, `-`/`=`/`.` for `G`), then right-strip. -/
def rejoin_hyphenated_grams (item : Item) : Item :=
  let t := primaryTag item
  let delims :=
    if t = "L" then some ['-', '=']
    else if t = "L-G" then some ['-', '=']
    else if t = "G" then some ['-', '=', '.']
    else none
  match delims with
  | none => item
  | some ds =>
    let text := item.text.getD ""
    let ms := reFindAll (hyphen_re ds) false text
    { item with text := some (pyRStrip ⟨hyphen_build text 0 ms⟩) }

/-! ### `extract_judgment` (`odinnormalize.py` lines 441-448)

The two patterns are simple enough to translate by hand.

`re.match(r'^\s*([*?#]+)[^/]+$', text)`: `\s*` must consume exactly the
leading whitespace (a shorter attempt leaves a whitespace character for
`[*?#]+`, which fails).  Writing the text as `ws ++ run ++ rest` with `ws`
the maximal whitespace and `run` the maximal `[*?#]` run after it, the
greedy `([*?#]+)` first takes all of `run`; `[^/]+$` then requires a
non-empty remainder without `/`.  If `rest` is empty, one backtracking step
gives the last run character to `[^/]+`, so the match succeeds with group 1
= `run` minus its last character provided `run` has length at least 2; if
`rest` contains `/`, every split fails (`[^/]+` must reach the end).

`re.sub(r'^(\s*)[*?#]+\s*', r'\1', text)` (the `re.U` in the source lands
in the positional `count` argument, irrelevant with a `^` anchor): when a
non-empty symbol run follows the leading whitespace, keep the whitespace
(group 1) and drop the run together with the whitespace after it. -/

/-- Is it one of the grammaticality-judgment symbols `* ? #`? -/
def isJudgChar (c : Char) : Bool := c = '*' || c = '?' || c = '#'

/-- Hand translation of the `extract_judgment` match (see above): the
captured group 1, or `none` when the pattern does not match. -/
def judgmentMatch (text : String) : Option String :=
  let ws := text.data.takeWhile isPySpace
  let afterWs := text.data.drop ws.length
  let run := afterWs.takeWhile isJudgChar
  let rest := afterWs.drop run.length
  if run.length = 0 then none
  else if rest.isEmpty then
    if 2 ≤ run.length then some ⟨run.take (run.length - 1)⟩ else none
  else if rest.contains '/' then none
  else some ⟨run⟩

/-- Hand translation of the `extract_judgment` substitution (see above). -/
def judgmentSub (text : String) : String :=
  let ws := text.data.takeWhile isPySpace
  let afterWs := text.data.drop ws.length
  let run := afterWs.takeWhile isJudgChar
  if run.length = 0 then text
  else ⟨ws ++ (afterWs.drop run.length).dropWhile isPySpace⟩

/-- `extract_judgment`: skip `M`-tagged and `CR`-flagged items; record a
leading judgment-symbol run when the remainder has no `/`; strip the run
(unconditionally, whenever one is present). -/
def extract_judgment (item : Item) : Item :=
  let tags := get_tags item
  if tags.headD "" = "M" || tags.contains "CR" then item
  else
    let text := item.text.getD ""
    let item2 :=
      match judgmentMatch text with
      | some j => { item with judgment := some j }
      | none => item
    { item2 with text := some (judgmentSub text) }

/-! ### `separate_secondary_translations` (`odinnormalize.py` lines 478-525) -/

/-- The regrouping pass over the filtered matches (lines 499-505): a match
with a `pre` but no `t` extends the previous part's `t` by the match's
whole `s` group. -/
def regroup_parts (text : String) : List RMatch → List (String × String) →
    List (String × String)
  | [], partsRev => partsRev.reverse
  | m :: rest, partsRev =>
    let pre := pyStrip ((groupStr text m 3).getD "")
    let t := pyStrip ((groupStr text m 5).getD "")
    match partsRev with
    | last :: ps =>
      if pre ≠ "" && t = "" then
        regroup_parts text rest ((last.1, last.2 ++ (groupStr text m 1).getD "") :: ps)
      else regroup_parts text rest ((pre, t) :: last :: ps)
    | [] => regroup_parts text rest [(pre, t)]

/-- Emit the split items (lines 508-522): ids get a `_i` suffix, matching
`LT`/`AL` markers in `pre` add the flag, a non-empty `pre` becomes the
`note` attribute.  (`re.search(r'lit(?:eral(?:ly)?)?', pre)` succeeds
exactly when `pre` contains `lit`.) -/
def sep_emit (item : Item) (tags2 : List String) :
    Nat → List (String × String) → List Item
  | _, [] => []
  | i, (pre, t) :: rest =>
    let newTags :=
      if strIn "lit" pre then
        (if tags2.contains "LT" then tags2 else tags2 ++ ["LT"])
      else if (reSearch alt_marker_re false pre).isSome then
        (if tags2.contains "AL" then tags2 else tags2 ++ ["AL"])
      else tags2
    { item with
      id := item.id ++ "_" ++ toString i
      text := some t
      tag := strJoin "+" newTags
      note := if pre ≠ "" then some pre else item.note }
      :: sep_emit item tags2 (i + 1) rest

/-- Per-item body of `separate_secondary_translations` (lines 489-524). -/
def sep_trans_item (item : Item) : List Item :=
  let tags := get_tags item
  let text := item.text.getD ""
  let mts := (reFindAll pre_trans_re true text).filter (fun m =>
    pyStrip ((groupStr text m 3).getD "") ≠ ""
      || pyStrip ((groupStr text m 5).getD "") ≠ "")
  if tags.headD "" = "T" && !((tags.drop 1).contains "CR")
      && (containsChar text ':' || (reSearch basic_quoted_trans_re true text).isSome)
      && !mts.isEmpty then
    let parts := regroup_parts text mts []
    let tags2 :=
      if 1 < parts.length then
        tags.filter (fun t => !(["AL", "LT", "DB"].contains t))
      else tags
    sep_emit item tags2 0 parts
  else [item]

/-- `separate_secondary_translations`: a no-op when any source/gloss item
carries `DB`; otherwise translation items with secondary readings are
split.  (The `indent = min_indent(...)` of line 486 is computed but never
used in the source.) -/
def separate_secondary_translations (items : List Item) : List Item :=
  if items.any (fun item =>
      let tags := get_tags item
      ["L", "G", "L-G"].contains (tags.headD "") && (tags.drop 1).contains "DB")
  then items
  else items.flatMap sep_trans_item

/-! ### `dewrap_lines` (`odinnormalize.py` lines 528-578)

Python tracks consumed items via `id(...)`; the embedding gives each item
its position index and tracks a set of consumed indices, reading item
values from the live (mutated) list. -/

/-- Indices of `arr` whose current item satisfies the test. -/
def idxWhere (arr : List Item) (p : Item → Bool) : List Nat :=
  (arr.enum.filter (fun e => p e.2)).map (fun e => e.1)

/-- Pad the `L`/`G` pairs (`zip_longest` pairs where both are present) to
equal length (lines 544-548), returning the updated live list. -/
def padPairs (arr : List Item) : List (Nat × Nat) → List Item
  | [] => arr
  | (li, gi) :: rest =>
    match arr.get? li, arr.get? gi with
    | some l, some g =>
      let maxlen := Nat.max (l.text.getD "").data.length (g.text.getD "").data.length
      let arr2 := arr.set li { l with text := some (strLJust (l.text.getD "") maxlen) }
      let arr3 := arr2.set gi { g with text := some (strLJust (g.text.getD "") maxlen) }
      padPairs arr3 rest
    | _, _ => padPairs arr rest
  termination_by l => l.length

/-- Collect the items of `idxs` from the live list (for `merge_items(*ls)`). -/
def itemsAt (arr : List Item) (idxs : List Nat) : List Item :=
  idxs.filterMap (fun i => arr.get? i)

/-- The "add everything unused up to the first translation" loop (lines
557-561): stop at the first item whose exact tag is `T` or `T+AC`. -/
def addUntilT (arr : List (Nat × Item)) (used : List Nat) (accRev : List Item) :
    List Item × List Nat :=
  match arr with
  | [] => (accRev.reverse, used)
  | (idx, item) :: rest =>
    if item.tag = "T" || item.tag = "T+AC" then (accRev.reverse, used)
    else if used.contains idx then addUntilT rest used accRev
    else addUntilT rest (used ++ [idx]) (item :: accRev)

/-- `dewrap_lines`. -/
def dewrap_lines (items : List Item) : Except String (List Item) := do
  let sig := strJoin " " (items.filterMap (fun item =>
    if ["L", "G", "T"].contains (primaryTag item) then some item.tag else none))
  let mut arr := items
  let mut unwrapped : List Item := []
  let mut used : List Nat := []
  if (["L G L G ", "L G T L G T", "G G ", "L L "].any (fun x => strIn x sig))
      && !(["L+", "L-", "G+", "G-"].any (fun x => strIn x sig)) then
    let lsIdx := idxWhere arr (fun item => item.tag = "L")
    let gsIdx := idxWhere arr (fun item => item.tag = "G")
    arr := padPairs arr (lsIdx.zip gsIdx)
    if !lsIdx.isEmpty then
      match itemsAt arr lsIdx with
      | first :: rest =>
        let merged ← merge_items first rest
        arr := arr.set (lsIdx.headD 0) merged
        unwrapped := unwrapped ++ [merged]
      | [] => pure ()
    if !gsIdx.isEmpty then
      match itemsAt arr gsIdx with
      | first :: rest =>
        let merged ← merge_items first rest
        arr := arr.set (gsIdx.headD 0) merged
        unwrapped := unwrapped ++ [merged]
      | [] => pure ()
    used := used ++ lsIdx ++ gsIdx
  let (upToT, used2) := addUntilT arr.enum used []
  unwrapped := unwrapped ++ upToT
  used := used2
  if (["L G T L G T", "T T+AC", "T T+LN", "T T"].any (fun x => strIn x sig))
      && !(["+EX", "+LT", "+AL", "T+CR"].any (fun x => strIn x sig)) then
    let tsIdx := idxWhere arr (fun item =>
      item.tag = "T" || item.tag = "T+AC" || item.tag = "T+LN")
    if !tsIdx.isEmpty then
      match itemsAt arr tsIdx with
      | first :: rest =>
        let merged ← merge_items first rest
        arr := arr.set (tsIdx.headD 0) merged
        unwrapped := unwrapped ++ [merged]
      | [] => pure ()
    used := used ++ tsIdx
  for e in arr.enum do
    if !used.contains e.1 then
      unwrapped := unwrapped ++ [e.2]
      used := used ++ [e.1]
  return unwrapped

/-! ### `unquote_translations` (`odinnormalize.py` lines 581-592)

Two independent substitutions, translated by hand.

`re.sub(r'^\s*[{OPENQUOTES}]?', '', text)`: the single anchored match is
the leading whitespace plus at most one following open quote; both are
deleted.

`re.sub(r'[{CLOSEQUOTES}]\s*$', '', text)`: the leftmost position holding
a close quote followed only by whitespace up to the end; everything from
that position on is deleted (a second match cannot exist, the first one
reaches the end of the string). -/

/-- Delete leading whitespace and at most one open quote. -/
def unquoteLead (s : String) : String :=
  match s.data.dropWhile isPySpace with
  | c :: rest => if OPENQUOTES.contains c then ⟨rest⟩ else ⟨c :: rest⟩
  | [] => ""

/-- Position of the leftmost close quote followed only by whitespace. -/
def findTrailQuote : List Char → Nat → Option Nat
  | [], _ => none
  | c :: rest, k =>
    if CLOSEQUOTES.contains c && rest.all isPySpace then some k
    else findTrailQuote rest (k + 1)

/-- Delete the trailing close quote (and whitespace after it), if any. -/
def unquoteTrail (s : String) : String :=
  match findTrailQuote s.data 0 with
  | some k => ⟨s.data.take k⟩
  | none => s

/-- `unquote_translations`: strip one leading and one trailing quotation
mark (independently) from `T` items. -/
def unquote_translations (items : List Item) : List Item :=
  items.map (fun item =>
    if primaryTag item = "T" then
      { item with text := some (unquoteTrail (unquoteLead (item.text.getD ""))) }
    else item)

/-! ### `normalize_items` (`odinnormalize.py` lines 148-179) -/

/-- The base tier: its items plus the instance metadata that
`remove_language_name` reads through `xigtpath` (language code and
language name). -/
structure TierData where
  items : List Item
  lgcode : Option String := none
  lgname : Option String := none

/-- The per-item middle loop of `normalize_items` (lines 159-169): set
`alignment` to the current id, rejoin hyphenated grams, extract the
judgment, and retag remaining `B` items as `M`. -/
def normalize_item_pass (item : Item) : Item :=
  let item1 := { item with alignment := some item.id }
  let item2 := rejoin_hyphenated_grams item1
  let item3 := extract_judgment item2
  let tags := get_tags item3
  if tags.headD "" = "B" then
    { item3 with tag := strJoin "+" ("M" :: tags.drop 1) }
  else item3

/-- The final renumbering loop (lines 176-177):
`item.id = '{}{}'.format(norm_id, i + 1)`. -/
def renumber (norm_id : String) : Nat → List Item → List Item
  | _, [] => []
  | k, item :: rest =>
    { item with id := norm_id ++ toString (k + 1) } :: renumber norm_id (k + 1) rest

/-- `normalize_items`: the fixed stage sequence, then renumbering. -/
def normalize_items (base : TierData) (norm_id : String) :
    Except String (List Item) := do
  let items := copy_items base.items
  let items := remove_blank_items items
  let items ← rejoin_continuations items
  let items ← rejoin_translations items
  let items := remove_citations items
  let items := remove_language_name items base.lgcode base.lgname
  let items := remove_example_numbers items
  let items := remove_blank_items items
  let items := items.map normalize_item_pass
  let items := separate_secondary_translations items
  let items ← dewrap_lines items
  let items := unquote_translations items
  let items := shift_left items (some ["L", "G", "L-G", "L-T", "G-T", "L-G-T"])
  return renumber norm_id 0 items

/-! ## Shared lemmas -/

/-- Equality of `Except` values is decidable when it is for both sides. -/
instance exceptDecEq {ε α : Type} [DecidableEq ε] [DecidableEq α] :
    DecidableEq (Except ε α) := fun x y =>
  match x, y with
  | .error a, .error b =>
    if h : a = b then .isTrue (h ▸ rfl)
    else .isFalse (fun hc => h (Except.error.inj hc))
  | .ok a, .ok b =>
    if h : a = b then .isTrue (h ▸ rfl)
    else .isFalse (fun hc => h (Except.ok.inj hc))
  | .error _, .ok _ => .isFalse (fun hc => Except.noConfusion hc)
  | .ok _, .error _ => .isFalse (fun hc => Except.noConfusion hc)

/-- Splitting a string that does not contain the separator yields the
singleton of the string. -/
theorem splitCharAux_no_sep (sep : Char) (l acc : List Char) (h : sep ∉ l) :
    splitCharAux sep l acc = [⟨acc.reverse ++ l⟩] := by
  induction l generalizing acc with
  | nil => simp [splitCharAux]
  | cons c rest ih =>
    have hc : ¬ c = sep := fun hh => h (by simp [hh])
    simp only [splitCharAux, if_neg hc]
    rw [ih _ (fun hmem => h (by simp [hmem]))]
    simp

/-- `get_tags` of an item whose tag has no `+` is the singleton of the tag. -/
theorem get_tags_no_plus (item : Item) (h : containsChar item.tag '+' = false) :
    get_tags item = [item.tag] := by
  have h' : '+' ∉ item.tag.data := by simpa [containsChar] using h
  unfold get_tags splitChar
  rw [splitCharAux_no_sep _ _ _ h']
  simp

/-- `takeWhile` walks through a prefix on which the predicate holds. -/
theorem takeWhile_append_all {p : Char → Bool} (xs ys : List Char)
    (h : xs.all p = true) :
    (xs ++ ys).takeWhile p = xs ++ ys.takeWhile p := by
  induction xs with
  | nil => simp
  | cons c rest ih =>
    simp only [List.all_cons, Bool.and_eq_true] at h
    simp [List.takeWhile, h.1, ih h.2]

/-- `dropWhile` drops a prefix on which the predicate holds. -/
theorem dropWhile_append_all {p : Char → Bool} (xs ys : List Char)
    (h : xs.all p = true) :
    (xs ++ ys).dropWhile p = ys.dropWhile p := by
  induction xs with
  | nil => simp
  | cons c rest ih =>
    simp only [List.all_cons, Bool.and_eq_true] at h
    simp [List.dropWhile, h.1, ih h.2]

/-- `takeWhile` of a list whose head fails the predicate is empty. -/
theorem takeWhile_eq_nil_of_head {p : Char → Bool} (l : List Char)
    (h : ∀ c, l.head? = some c → p c = false) :
    l.takeWhile p = [] := by
  cases l with
  | nil => simp
  | cons c rest => simp [List.takeWhile, h c rfl]

/-- `dropWhile` of a list whose head fails the predicate is the list. -/
theorem dropWhile_eq_self_of_head {p : Char → Bool} (l : List Char)
    (h : ∀ c, l.head? = some c → p c = false) :
    l.dropWhile p = l := by
  cases l with
  | nil => simp
  | cons c rest => simp [List.dropWhile, h c rfl]

/-- A string is empty exactly when its character list is. -/
theorem str_eq_empty_iff (t : String) : t = "" ↔ t.data = [] := by
  constructor
  · intro ht; subst ht; rfl
  · intro ht
    cases t with
    | mk l =>
      simp only at ht
      subst ht
      rfl

/-- A string strips to empty exactly when all its characters are
whitespace. -/
theorem pyStrip_eq_empty_iff (s : String) :
    pyStrip s = "" ↔ s.data.all isPySpace = true := by
  have hdata : (pyStrip s).data
      = ((s.data.dropWhile isPySpace).reverse.dropWhile isPySpace).reverse := rfl
  rw [str_eq_empty_iff, hdata]
  constructor
  · intro h2
    have h2' : (s.data.dropWhile isPySpace).reverse.dropWhile isPySpace = [] := by
      simpa using congrArg List.reverse h2
    have h3 : ∀ x ∈ (s.data.dropWhile isPySpace).reverse, isPySpace x = true :=
      List.dropWhile_eq_nil_iff.mp h2'
    have h4 : ∀ x ∈ s.data.dropWhile isPySpace, isPySpace x = true := by
      intro x hx
      exact h3 x (List.mem_reverse.mpr hx)
    rw [List.all_eq_true]
    intro x hx
    have hx2 : x ∈ s.data.takeWhile isPySpace ++ s.data.dropWhile isPySpace := by
      rw [List.takeWhile_append_dropWhile]
      exact hx
    rcases List.mem_append.mp hx2 with hx1 | hx1
    · exact List.mem_takeWhile_imp hx1
    · exact h4 x hx1
  · intro h
    have h1 : s.data.dropWhile isPySpace = [] := by
      rw [List.dropWhile_eq_nil_iff]
      intro x hx
      exact (List.all_eq_true.mp h) x hx
    simp [h1]

/-- Ids of the renumbered list. -/
theorem renumber_get (norm_id : String) (k : Nat) (l : List Item) (i : Nat)
    (h : i < (renumber norm_id k l).length) :
    ((renumber norm_id k l).get ⟨i, h⟩).id = norm_id ++ toString (k + i + 1) := by
  induction l generalizing k i with
  | nil => simp [renumber] at h
  | cons a rest ih =>
    cases i with
    | zero => simp [renumber]
    | succ n =>
      have h2 : n < (renumber norm_id (k + 1) rest).length := by
        simpa [renumber] using h
      have := ih (k + 1) n h2
      simpa [renumber, Nat.add_assoc, Nat.add_comm, Nat.add_left_comm] using this

/-! ## C1 -/

/-- C1: `merge_items` raises the reference-conflict error exactly when,
after comma-joining the inputs' reference fields, `segmentation` and at
least one of `alignment` or `content` are non-empty; and since the check
precedes every write, on that error the state of the input items is
unchanged (no text, line, tag or reference field has been touched). -/
theorem merge_items_conflict_iff_and_preserves (items : List Item) :
    ((merge_items_run items).1 = some mergeConflictMsg ↔
      (joinRefs (fun i => i.segmentation) items ≠ ""
        ∧ (joinRefs (fun i => i.alignment) items ≠ ""
            ∨ joinRefs (fun i => i.content) items ≠ "")))
    ∧ ((merge_items_run items).1 = some mergeConflictMsg →
      (merge_items_run items).2 = items) := by
  have hiff : (merge_items_run items).1 = some mergeConflictMsg ↔
      (joinRefs (fun i => i.segmentation) items ≠ ""
        ∧ (joinRefs (fun i => i.alignment) items ≠ ""
            ∨ joinRefs (fun i => i.content) items ≠ "")) := by
    constructor
    · intro h
      by_contra hc
      rw [not_and_or, not_or] at hc
      rcases hc with hc | ⟨ha, hco⟩
      · rw [not_ne_iff] at hc
        cases items with
        | nil => simp [merge_items_run, joinRefs, strJoin, mergeConflictMsg] at h
        | cons a rest => simp [merge_items_run, hc] at h
      · rw [not_ne_iff] at ha hco
        cases items with
        | nil => simp [merge_items_run, joinRefs, strJoin, mergeConflictMsg] at h
        | cons a rest => simp [merge_items_run, ha, hco] at h
    · rintro ⟨hseg, hac⟩
      rcases hac with h | h <;> simp [merge_items_run, hseg, h]
  refine ⟨hiff, fun h => ?_⟩
  obtain ⟨hseg, hac⟩ := hiff.mp h
  rcases hac with ha | ha <;> simp [merge_items_run, hseg, ha]

/-- A pair of items whose merge raises the conflict error. -/
def conflictSegItem : Item :=
  { id := "s", text := some "a", line := "1", segmentation := some "x1" }

/-- The second item of the conflicting pair. -/
def conflictAlItem : Item :=
  { id := "a", text := some "b", line := "2", alignment := some "y1" }

/-- Witness for C1: a concrete conflicting pair raises and is preserved. -/
theorem merge_items_conflict_witness :
    (merge_items_run [conflictSegItem, conflictAlItem]).2
      = [conflictSegItem, conflictAlItem] :=
  (merge_items_conflict_iff_and_preserves [conflictSegItem, conflictAlItem]).2
    (by decide)

/-! ## C7 -/

/-- The first item of the C7 example. -/
def contA : Item := { id := "i1", text := some "the", tag := "L", line := "1" }

/-- The continuation item of the C7 example. -/
def contC : Item := { id := "i2", text := some "dog ran", tag := "C", line := "2" }

/-- The merged result of the C7 example. -/
def contMerged : Item :=
  { id := "i1", text := some "the dog ran", tag := "L", line := "1 2" }

/-- C7: `rejoin_continuations` merges every `C` item with a preceding
retained item into that item after left-stripping its text and dropping
the `C` from its tag; a `C` item with no preceding item is kept standalone;
and the example `[("L","the"), ("C","dog ran")]` yields exactly one item
with tag `L` and text `"the dog ran"`. -/
theorem rejoin_continuations_spec :
    (rejoin_continuations [contA, contC] = .ok [contMerged])
    ∧ (∀ c : Item, primaryTag c = "C" → rejoin_continuations [c] = .ok [c])
    ∧ (∀ a c : Item, primaryTag a ≠ "C" → c.tag = "C" →
        containsChar a.tag '+' = false → a.tag ≠ "" →
        a.alignment = none → a.content = none → a.segmentation = none →
        c.alignment = none → c.content = none → c.segmentation = none →
        rejoin_continuations [a, c]
          = .ok [{ a with
              text := some ((a.text.getD "") ++ " " ++ pyLStrip (c.text.getD ""))
              line := a.line ++ " " ++ c.line
              tag := strReplaceAll a.tag "G-L" "L-G" }]) := by
  refine ⟨rfl, ?_, ?_⟩
  · intro c _
    simp [rejoin_continuations, rejoin_continuations_aux]
  · intro a c hA hC hplus hAne hal hco hseg hcal hcco hcseg
    have hga : get_tags a = [a.tag] := get_tags_no_plus a hplus
    have hpa : primaryTag a = a.tag := by simp [primaryTag, hga]
    have hpc : primaryTag c = "C" := by
      simp [primaryTag, get_tags, hC]
      rfl
    simp only [rejoin_continuations, rejoin_continuations_aux, hpa, hpc]
    rw [if_neg (by simp), if_pos (by simp)]
    have hmerge : merge_items a
        [{ c with text := some (pyLStrip (c.text.getD "")), tag := strDropN c.tag 1 }]
        = .ok { a with
            text := some ((a.text.getD "") ++ " " ++ pyLStrip (c.text.getD ""))
            line := a.line ++ " " ++ c.line
            tag := strReplaceAll a.tag "G-L" "L-G" } := by
      unfold merge_items merge_items_run
      have hjal : joinRefs (fun i => i.alignment)
          [a, { c with text := some (pyLStrip (c.text.getD "")), tag := strDropN c.tag 1 }] = "" := by
        simp [joinRefs, strJoin, hal, hcal]
      have hjco : joinRefs (fun i => i.content)
          [a, { c with text := some (pyLStrip (c.text.getD "")), tag := strDropN c.tag 1 }] = "" := by
        simp [joinRefs, strJoin, hco, hcco]
      have hjseg : joinRefs (fun i => i.segmentation)
          [a, { c with text := some (pyLStrip (c.text.getD "")), tag := strDropN c.tag 1 }] = "" := by
        simp [joinRefs, strJoin, hseg, hcseg]
      rw [hjal, hjco, hjseg]
      rw [if_neg (by simp)]
      have hg2 : get_tags { c with text := some (pyLStrip (c.text.getD "")), tag := strDropN c.tag 1 } = [""] := by
        simp [get_tags, hC, strDropN, splitChar, splitCharAux]
      have hp2 : primaryTag { c with text := some (pyLStrip (c.text.getD "")), tag := strDropN c.tag 1 } = "" := by
        simp [primaryTag, hg2]
      simp [strJoin, hpa, hp2, hAne, hga, hg2, sortedDedup, insertSorted,
        hal, hco, hseg]
    rw [hmerge]
    rfl

/-- Witness for C7: the generic two-item case applied at the example pair. -/
theorem rejoin_continuations_witness :
    rejoin_continuations [contA, contC]
      = .ok [{ contA with
          text := some ((contA.text.getD "") ++ " " ++ pyLStrip (contC.text.getD ""))
          line := contA.line ++ " " ++ contC.line
          tag := strReplaceAll contA.tag "G-L" "L-G" }] :=
  rejoin_continuations_spec.2.2 contA contC (by decide) (by decide) (by decide)
    (by decide) rfl rfl rfl rfl rfl rfl

/-! ## C8 -/

/-- C8 counterexample: the claim says the comma code point is an open
quote in the quote-pair table, but the comma entry is commented out in the
source, so `QUOTEPAIRS` has no comma key at all. -/
theorem quotepairs_comma_cex :
    QUOTEPAIRS.find? (fun p => p.1 = ',') = none := by decide

/-- C8 (amended): the quote-pair table has no comma entry (the comma line
is commented out in the source; the grave accent is the open quote whose
close is the apostrophe), and the right-pointing double-angle quotation
mark is an acceptable close for both the left- and the right-pointing
double-angle opens. -/
theorem quotepairs_amended :
    QUOTEPAIRS.find? (fun p => p.1 = ',') = none
    ∧ QUOTEPAIRS.find? (fun p => p.1 = '\u0060') = some ('\u0060', ['\u0027'])
    ∧ (QUOTEPAIRS.find? (fun p => p.1 = '«')).map (fun p => p.2.contains '»')
        = some true
    ∧ (QUOTEPAIRS.find? (fun p => p.1 = '»')).map (fun p => p.2.contains '»')
        = some true := by decide

/-! ## C9 -/

/-- The claim's wording of "non-blank": the text is neither absent, nor
empty, nor all-whitespace. -/
def claim_non_blank (i : Item) : Bool :=
  match i.text with
  | none => false
  | some t => t ≠ "" && !(t.data.all isPySpace)

/-- C9: `remove_blank_items` is idempotent, and its result is the
order-preserving subsequence of exactly those input items whose text is
neither absent, empty, nor all-whitespace. -/
theorem remove_blank_items_idempotent_filter :
    (∀ x : List Item, remove_blank_items (remove_blank_items x)
        = remove_blank_items x)
    ∧ (∀ x : List Item, remove_blank_items x = x.filter claim_non_blank) := by
  have hempty : pyStrip "" = "" := rfl
  have hpt : ∀ i : Item, (decide (pyStrip (i.text.getD "") ≠ ""))
      = claim_non_blank i := by
    intro i
    unfold claim_non_blank
    cases htext : i.text with
    | none => simp [htext, hempty]
    | some t =>
      simp only [htext, Option.getD_some]
      by_cases ht : t = ""
      · subst ht; simp [hempty]
      · by_cases hall : t.data.all isPySpace = true
        · simp [ht, hall, (pyStrip_eq_empty_iff t).mpr hall]
        · have hne : pyStrip t ≠ "" := fun hh => hall ((pyStrip_eq_empty_iff t).mp hh)
          simp [ht, hall, hne]
  have hfilter_idem : ∀ (p : Item → Bool) (l : List Item),
      (l.filter p).filter p = l.filter p := by
    intro p l
    induction l with
    | nil => rfl
    | cons a rest ih =>
      cases hp : p a
      · simp [List.filter_cons, hp, ih]
      · simp [List.filter_cons, hp, ih]
  constructor
  · intro x
    exact hfilter_idem _ x
  · intro x
    unfold remove_blank_items
    induction x with
    | nil => rfl
    | cons a rest ih =>
      rw [List.filter_cons, List.filter_cons]
      simp only [ih]
      rw [hpt a]

/-! ## C3 -/

/-- Modelled from the spec sentence for C3: the nearest item of the
complementary role is found "by searching forward from the current
position, then backward", for both the `L` and the `G` role; the match is
not removable when that item's text over the same span is non-blank. -/
def claim_removable (items : List Item) (mStart mStop : Nat)
    (t : String) (i : Nat) : Bool :=
  let others := sliceAfter items i ++ backFrom items i
  let t2 := if t = "L" then "G" else "L"
  match others.find? (fun o => primaryTag o = t2) with
  | some other => !(pyStrip (strSlice (other.text.getD "") mStart mStop) ≠ "")
  | none => true

/-- A source line for the C3 counterexample (blank over the span 4-9). -/
def c3ItemL0 : Item := { id := "a", text := some "abc", tag := "L", line := "1" }

/-- The gloss line of the C3 counterexample. -/
def c3ItemG1 : Item := { id := "b", text := some "gloss", tag := "G", line := "2" }

/-- Another source line (non-blank over the span 4-9). -/
def c3ItemL2 : Item :=
  { id := "c", text := some "aaaaaaaaaaaa", tag := "L", line := "3" }

/-- C3 counterexample: for the `G` role the code searches `items[i-1:]`
first, so the preceding `L` (blank over the span) is found and the match is
removable, while the claim's forward-from-current-then-backward search
would find the following non-blank `L` and declare it not removable. -/
theorem cit_removable_search_order_cex :
    cit_removable [c3ItemL0, c3ItemG1, c3ItemL2] 4 9 "" "G" 1 = true
    ∧ claim_removable [c3ItemL0, c3ItemG1, c3ItemL2] 4 9 "G" 1 = false := by
  decide

/-- C3 (amended): a trailing-citation match on an `L` or `G` item is not
removable exactly when the nearest item of the complementary role has
non-blank text over the match's span, where for `L` the search runs
forward from the position after the current item and then backward, while
for `G` it starts at the immediately preceding item and runs forward to
the end, then backward. -/
theorem cit_removable_nearest_iff (items : List Item) (s e : Nat)
    (inner : String) (i : Nat) (t : String) (h : t = "L" ∨ t = "G") :
    cit_removable items s e inner t i = false ↔
      ∃ other,
        ((if t = "L" then sliceAfter items i ++ backFrom items i
          else fromBefore items i ++ backFrom items i).find?
            (fun o => primaryTag o = (if t = "L" then "G" else "L")))
          = some other
        ∧ pyStrip (strSlice (other.text.getD "") s e) ≠ "" := by
  have hlg : (t = "L" || t = "G") = true := by
    rcases h with h | h <;> simp [h]
  unfold cit_removable
  rw [if_pos hlg]
  rcases h with h | h <;> subst h
  · simp only [if_pos rfl]
    cases hf : (sliceAfter items i ++ backFrom items i).find?
        (fun o => primaryTag o = "G") with
    | none => simp [hf]
    | some other =>
      by_cases hb : pyStrip (strSlice (other.text.getD "") s e) ≠ ""
      · simp [hf, hb]
      · simp [hf, hb]
  · have hne : ¬ ("G" : String) = "L" := by decide
    simp only [if_neg hne]
    cases hf : (fromBefore items i ++ backFrom items i).find?
        (fun o => primaryTag o = "L") with
    | none => simp [hf]
    | some other =>
      by_cases hb : pyStrip (strSlice (other.text.getD "") s e) ≠ ""
      · simp [hf, hb]
      · simp [hf, hb]

/-- An `L` item for the C3 witness. -/
def c3WitL : Item := { id := "x", text := some "dog", tag := "L", line := "1" }

/-- A `G` item with non-blank text over the span 4-9. -/
def c3WitG : Item :=
  { id := "y", text := some "aaaaaaaaaaaa", tag := "G", line := "2" }

/-- Witness for C3: the amended characterization applied to a concrete
`L` item whose forward search finds a non-blank gloss. -/
theorem cit_removable_nearest_witness :
    cit_removable [c3WitL, c3WitG] 4 9 "" "L" 0 = false :=
  (cit_removable_nearest_iff [c3WitL, c3WitG] 4 9 "" 0 "L" (Or.inl rfl)).mpr
    ⟨c3WitG, by decide, by decide⟩

/-! ## C6 -/

/-- The C6 counterexample item: a leading judgment run followed by an
alternation slash. -/
def judgCexItem : Item := { id := "x", text := some "*foo/bar", tag := "L" }

/-- C6 counterexample: the claim says that with a later `/` the text is
left unchanged, but the leading-run substitution at the end of
`extract_judgment` is outside the `if match:` and strips the run anyway. -/
theorem extract_judgment_strips_on_alternation_cex :
    judgCexItem.text = some "*foo/bar"
    ∧ (extract_judgment judgCexItem).text = some "foo/bar"
    ∧ (extract_judgment judgCexItem).text ≠ judgCexItem.text
    ∧ (extract_judgment judgCexItem).judgment = none := by decide

/-- C6 (amended): `extract_judgment` leaves `M`-tagged and `CR`-flagged
items unchanged; for any other item whose text is leading whitespace, a
non-empty run of `* ? #`, and a remainder, the run (and the whitespace
after it) is stripped from the text unconditionally, while the `judgment`
attribute is set only when the remainder is non-empty and contains no `/`
(to the whole run), or when the text ends right after a run of length at
least two (to the run minus its last symbol); otherwise the previous
judgment value is kept. -/
theorem extract_judgment_amended :
    (∀ item : Item,
      primaryTag item = "M" ∨ (get_tags item).contains "CR" = true →
      extract_judgment item = item)
    ∧ (∀ (item : Item) (ws run rest : List Char),
        primaryTag item ≠ "M" → (get_tags item).contains "CR" = false →
        item.text = some ⟨ws ++ run ++ rest⟩ →
        ws.all isPySpace = true → run ≠ [] → run.all isJudgChar = true →
        (∀ c, rest.head? = some c → isJudgChar c = false) →
        (extract_judgment item).text = some ⟨ws ++ rest.dropWhile isPySpace⟩
        ∧ (extract_judgment item).judgment =
            (if rest = [] then
              (if 2 ≤ run.length then
                 some (⟨run.take (run.length - 1)⟩ : String)
               else item.judgment)
             else if rest.contains '/' = true then item.judgment
             else some (⟨run⟩ : String))) := by
  constructor
  · intro item h
    have hcond : (decide ((get_tags item).headD "" = "M")
        || (get_tags item).contains "CR") = true := by
      rcases h with h | h
      · simp only [primaryTag] at h
        rw [h]
        simp
      · rw [h]
        simp
    simp only [extract_judgment]
    rw [if_pos hcond]
  · intro item ws run rest hM hCR htext hws hrun hjudg hresthead
    simp only [primaryTag] at hM
    have hnotspace : ∀ c, (run ++ rest).head? = some c → isPySpace c = false := by
      intro c hc
      cases hrunc : run with
      | nil => exact absurd hrunc hrun
      | cons r rs =>
        rw [hrunc] at hc
        simp only [List.cons_append, List.head?_cons, Option.some.injEq] at hc
        have hr : isJudgChar r = true := by
          apply List.all_eq_true.mp hjudg r
          rw [hrunc]
          simp
        rw [← hc]
        have hd : (r = '*' ∨ r = '?') ∨ r = '#' := by simpa [isJudgChar] using hr
        rcases hd with (h | h) | h <;> subst h <;> rfl
    have htextdata : ((⟨ws ++ run ++ rest⟩ : String)).data = ws ++ (run ++ rest) := by
      simp
    have e1 : (⟨ws ++ run ++ rest⟩ : String).data.takeWhile isPySpace = ws := by
      rw [htextdata, takeWhile_append_all _ _ hws,
        takeWhile_eq_nil_of_head _ hnotspace]
      simp
    have e2 : (⟨ws ++ run ++ rest⟩ : String).data.drop ws.length = run ++ rest := by
      rw [htextdata]
      exact List.drop_left _ _
    have e3 : (run ++ rest).takeWhile isJudgChar = run := by
      rw [takeWhile_append_all _ _ hjudg, takeWhile_eq_nil_of_head _ hresthead]
      simp
    have e4 : (run ++ rest).drop run.length = rest := List.drop_left _ _
    have hrunlen : ¬ run.length = 0 := by simpa using hrun
    have hmatch : judgmentMatch ⟨ws ++ run ++ rest⟩ =
        (if rest = [] then
          (if 2 ≤ run.length then some (⟨run.take (run.length - 1)⟩ : String)
           else none)
         else if rest.contains '/' = true then none
         else some (⟨run⟩ : String)) := by
      simp only [judgmentMatch]
      rw [e1, e2, e3, e4]
      rw [if_neg hrunlen]
      by_cases hr : rest = []
      · subst hr
        simp
      · have hie : rest.isEmpty = false := by
          cases rest with
          | nil => exact absurd rfl hr
          | cons x xs => rfl
        simp only [hie, Bool.false_eq_true, if_false, if_neg hr]
    have hsub : judgmentSub ⟨ws ++ run ++ rest⟩ = ⟨ws ++ rest.dropWhile isPySpace⟩ := by
      simp only [judgmentSub]
      rw [e1, e2, e3, e4]
      rw [if_neg hrunlen]
    have hcond : ¬((decide ((get_tags item).headD "" = "M")
        || (get_tags item).contains "CR") = true) := by
      rw [hCR]
      simpa using hM
    constructor
    · simp only [extract_judgment]
      rw [if_neg hcond, htext]
      simp only [Option.getD_some]
      cases hj : judgmentMatch ⟨ws ++ run ++ rest⟩ with
      | none => simpa using hsub
      | some j => simpa using hsub
    · simp only [extract_judgment]
      rw [if_neg hcond, htext]
      simp only [Option.getD_some]
      rw [hmatch]
      by_cases hr : rest = []
      · rw [if_pos hr, if_pos hr]
        by_cases hl : 2 ≤ run.length
        · rw [if_pos hl, if_pos hl]
        · rw [if_neg hl, if_neg hl]
      · rw [if_neg hr, if_neg hr]
        cases hcon : rest.contains '/'
        · rw [if_neg (by simp [hcon]), if_neg (by simp [hcon])]
        · rw [if_pos (by simp [hcon]), if_pos (by simp [hcon])]

/-- The C6 witness item. -/
def judgWitItem : Item := { id := "w", text := some "** ok", tag := "L" }

/-- Witness for C6: the amended characterization at a concrete item with a
two-symbol run. -/
theorem extract_judgment_amended_witness :
    (extract_judgment judgWitItem).text = some "ok"
    ∧ (extract_judgment judgWitItem).judgment = some "**" := by
  have h := extract_judgment_amended.2 judgWitItem [] ['*', '*'] (" ok".data)
    (by decide) (by decide) (by decide) (by decide) (by decide) (by decide)
    (fun c hc => by
      rw [show (" ok".data.head? : Option Char) = some ' ' from rfl] at hc
      cases hc
      rfl)
  refine ⟨?_, ?_⟩
  · rw [h.1]
    decide
  · rw [h.2]
    decide

/-! ## C10 -/

/-- The quote-pair validation predicate induced by the table (the spec's
"match predicate for quote-pair validation"); `unquote_translations` never
consults it. -/
def quote_pair_match (q1 q2 : Char) : Bool :=
  match QUOTEPAIRS.find? (fun p => p.1 = q1) with
  | some p => p.2.contains q2
  | none => false

/-- No open quote is whitespace. -/
theorem openquote_not_space (c : Char) (h : OPENQUOTES.contains c = true) :
    isPySpace c = false := by
  have hall : OPENQUOTES.all (fun c => !isPySpace c) = true := by decide
  have hmem : c ∈ OPENQUOTES := by simpa using h
  have := List.all_eq_true.mp hall c hmem
  simpa using this

/-- If no character is a close quote, the trailing-quote search fails. -/
theorem findTrailQuote_none (l : List Char) (k : Nat)
    (h : ∀ c ∈ l, CLOSEQUOTES.contains c = false) :
    findTrailQuote l k = none := by
  induction l generalizing k with
  | nil => rfl
  | cons c rest ih =>
    have hc := h c (by simp)
    simp only [findTrailQuote, hc, Bool.false_and, Bool.false_eq_true, if_false]
    exact ih _ (fun d hd => h d (by simp [hd]))

/-- The trailing-quote search finds a final close quote after a body free
of close quotes. -/
theorem findTrailQuote_append (body : List Char) (q2 : Char) (k : Nat)
    (hb : ∀ c ∈ body, CLOSEQUOTES.contains c = false)
    (hq : CLOSEQUOTES.contains q2 = true) :
    findTrailQuote (body ++ [q2]) k = some (k + body.length) := by
  induction body generalizing k with
  | nil =>
    have hq2 : q2 ∈ CLOSEQUOTES := by simpa using hq
    simp [findTrailQuote, hq2]
  | cons c rest ih =>
    have hc := hb c (by simp)
    simp only [List.cons_append, findTrailQuote, hc, Bool.false_and,
      Bool.false_eq_true, if_false, List.append_eq]
    rw [ih (k + 1) (fun d hd => hb d (by simp [hd]))]
    congr 1
    simp
    omega

/-- The leading substitution on a text starting with an open quote. -/
theorem unquoteLead_openquote (q1 : Char) (body : List Char)
    (hq1 : OPENQUOTES.contains q1 = true) :
    unquoteLead ⟨q1 :: body⟩ = ⟨body⟩ := by
  have hq1s : isPySpace q1 = false := openquote_not_space q1 hq1
  simp only [unquoteLead, List.dropWhile_cons, hq1s, Bool.false_eq_true,
    if_false, hq1, if_true]

/-- The leading substitution on a text that starts with neither whitespace
nor an open quote. -/
theorem unquoteLead_plain (body : List Char) (hne : body ≠ [])
    (hhead : ∀ c, body.head? = some c →
      isPySpace c = false ∧ OPENQUOTES.contains c = false) :
    unquoteLead ⟨body⟩ = ⟨body⟩ := by
  cases hb : body with
  | nil => exact absurd hb hne
  | cons c rest =>
    have hc := hhead c (by rw [hb]; rfl)
    simp only [unquoteLead, List.dropWhile_cons, hc.1, Bool.false_eq_true,
      if_false, hc.2]

/-- C10: `unquote_translations` strips the leading and trailing quote of a
`T` item independently: a lone leading open quote is removed even with no
closing quote at the end, a lone trailing close quote is removed even with
no opening quote, and a leading/trailing pair is removed even when the
table does not list the close as acceptable for the open (the pair is
never validated against the quote-pair table). -/
theorem unquote_translations_independent :
    (∀ (item : Item) (q1 : Char) (body : List Char),
      primaryTag item = "T" → OPENQUOTES.contains q1 = true →
      item.text = some ⟨q1 :: body⟩ →
      (∀ c ∈ body, CLOSEQUOTES.contains c = false) →
      unquote_translations [item] = [{ item with text := some ⟨body⟩ }])
    ∧ (∀ (item : Item) (q2 : Char) (body : List Char),
      primaryTag item = "T" → CLOSEQUOTES.contains q2 = true →
      item.text = some ⟨body ++ [q2]⟩ →
      body ≠ [] →
      (∀ c, body.head? = some c →
        isPySpace c = false ∧ OPENQUOTES.contains c = false) →
      (∀ c ∈ body, CLOSEQUOTES.contains c = false) →
      unquote_translations [item] = [{ item with text := some ⟨body⟩ }])
    ∧ (∀ (item : Item) (q1 q2 : Char) (body : List Char),
      primaryTag item = "T" → OPENQUOTES.contains q1 = true →
      CLOSEQUOTES.contains q2 = true →
      quote_pair_match q1 q2 = false →
      item.text = some ⟨q1 :: (body ++ [q2])⟩ →
      (∀ c ∈ body, CLOSEQUOTES.contains c = false) →
      unquote_translations [item] = [{ item with text := some ⟨body⟩ }]) := by
  refine ⟨?_, ?_, ?_⟩
  · intro item q1 body hT hq1 htext hbody
    have htrail : unquoteTrail ⟨body⟩ = ⟨body⟩ := by
      simp only [unquoteTrail, findTrailQuote_none body 0 hbody]
    simp only [unquote_translations, List.map_cons, List.map_nil, hT, if_pos]
    rw [htext]
    simp only [Option.getD_some, unquoteLead_openquote q1 body hq1, htrail]
  · intro item q2 body hT hq2 htext hne hhead hbody
    have htrail : unquoteTrail ⟨body ++ [q2]⟩ = ⟨body⟩ := by
      simp only [unquoteTrail, findTrailQuote_append body q2 0 hbody hq2]
      simp [List.take_left]
    have hlead : unquoteLead ⟨body ++ [q2]⟩ = ⟨body ++ [q2]⟩ := by
      apply unquoteLead_plain
      · simp
      · intro c hc
        cases hb2 : body with
        | nil => exact absurd hb2 hne
        | cons b bs =>
          rw [hb2] at hc
          simp only [List.cons_append, List.head?_cons] at hc
          apply hhead
          rw [hb2]
          simpa using hc
    simp only [unquote_translations, List.map_cons, List.map_nil, hT, if_pos]
    rw [htext]
    simp only [Option.getD_some, hlead, htrail]
  · intro item q1 q2 body hT hq1 hq2 hpair htext hbody
    have htrail : unquoteTrail ⟨body ++ [q2]⟩ = ⟨body⟩ := by
      simp only [unquoteTrail, findTrailQuote_append body q2 0 hbody hq2]
      simp [List.take_left]
    simp only [unquote_translations, List.map_cons, List.map_nil, hT, if_pos]
    rw [htext]
    simp only [Option.getD_some, unquoteLead_openquote q1 (body ++ [q2]) hq1, htrail]

/-- The C10 witness item: a mismatched quote pair around a translation. -/
def unqWitItem : Item := { id := "t", text := some "«He ran.”", tag := "T" }

/-- Witness for C10: the mismatched pair is stripped anyway. -/
theorem unquote_translations_witness :
    unquote_translations [unqWitItem] = [{ unqWitItem with text := some "He ran." }] := by
  have h := unquote_translations_independent.2.2 unqWitItem '«' '”' ("He ran.".data)
    (by decide) (by decide) (by decide) (by decide) (by decide) (by decide)
  rw [h]

/-! ## C4 -/

/-- The C4 example item. -/
def citExItem : Item :=
  { id := "i1", text := some "the dog ran (1999)", tag := "L", line := "1" }

/-- C4: on a removable citation match, `remove_citations` splits the item
into the shortened original followed by a new `M` item; the example
`("L", "the dog ran (1999)")` yields exactly `("L", "the dog ran")` and
`("M", "(1999)")`; and at most one secondary flag moves to the `M` item,
the first present in the priority order `AC > LN > CN`, removed from the
original's tag. -/
theorem remove_citations_split_and_flag_priority :
    (remove_citations [citExItem]
        = [{ id := "i1", text := some "the dog ran", tag := "L", line := "1" },
           { id := "i1", text := some "(1999)", tag := "M", line := "1" }])
    ∧ (∀ (item : Item) (m : RMatch),
        ["L", "G", "T", "L-G", "L-T", "L-G-T"].contains (primaryTag item) = true →
        reSearch citation_re false (item.text.getD "") = some m →
        cit_removable [item] m.start m.stop (citInner (item.text.getD "") m)
            (primaryTag item) 0 = true →
        remove_citations [item]
          = (let tags := get_tags item
             let moved :=
               if tags.contains "AC" then some "AC"
               else if tags.contains "LN" then some "LN"
               else if tags.contains "CN" then some "CN"
               else none
             [{ item with
                  text := some (pyRStrip
                    (reSubAll citation_re false emptyRepl (item.text.getD "")))
                  tag := strJoin "+" (match moved with
                    | some f => eraseFirst tags f
                    | none => tags) },
              { item with
                  text := some (pyStrip (matchStr (item.text.getD "") m))
                  tag := strJoin "+" ("M" :: moved.toList) }])) := by
  refine ⟨by decide, ?_⟩
  intro item m hrel hsearch hremv
  simp only [primaryTag] at hrel hremv
  show remove_citations_go [item] 0 [] (Nat.succ 0) = _
  simp only [remove_citations_go, List.get?, hrel, Bool.not_true,
    Bool.false_eq_true, if_false, hsearch, hremv, if_true]
  rfl

/-- The C4 witness item, carrying both `CN` and `AC` so that the priority
choice is visible. -/
def citWitItem : Item :=
  { id := "w", text := some "the dog ran (1999)", tag := "L+CN+AC", line := "1" }

/-- The match of `citation_re` on the witness text. -/
def citWitMatch : RMatch :=
  (reSearch citation_re false (citWitItem.text.getD "")).getD ⟨0, 0, []⟩

/-- Witness for C4: `AC` wins over `CN` and moves to the `M` item. -/
theorem remove_citations_flag_witness :
    remove_citations [citWitItem]
      = [{ id := "w", text := some "the dog ran", tag := "L+CN", line := "1" },
         { id := "w", text := some "(1999)", tag := "M+AC", line := "1" }] := by
  have h := remove_citations_split_and_flag_priority.2 citWitItem citWitMatch
    (by decide) (by decide) (by decide)
  rw [h]
  decide

/-! ## C5 -/

/-- The source line of the C5 aligned example. -/
def exNumL : Item :=
  { id := "i1", text := some "1. the dog ran", tag := "L", line := "1" }

/-- The gloss line of the C5 aligned example. -/
def exNumG : Item :=
  { id := "i2", text := some "1. dog.NOM run-PST", tag := "G", line := "2" }

/-- The misaligned gloss line of the C5 example. -/
def exNumGMis : Item :=
  { id := "i2", text := some "1a. dog.NOM run-PST", tag := "G", line := "2" }

/-- C5: in the aligned example both items lose the `1.` token (it is
blanked in place, preserving offsets); in the misaligned example neither
item is stripped; and a single-role item's match is removable exactly when
every other item with a relevant role tag shows, at the identical
character offsets, either exactly the matched token or blank text (the
item itself passes that check trivially, since the token was read from its
own text at those offsets). -/
theorem remove_example_numbers_alignment_check :
    (remove_example_numbers [exNumL, exNumG]
        = [{ exNumL with text := some "   the dog ran" },
           { exNumG with text := some "   dog.NOM run-PST" }])
    ∧ strIn "1." "   the dog ran" = false
    ∧ strIn "1." "   dog.NOM run-PST" = false
    ∧ remove_example_numbers [exNumL, exNumGMis] = [exNumL, exNumGMis]
    ∧ (∀ (items : List Item) (i : Nat) (item : Item) (mStart mStop : Nat)
          (mtext : String),
        items.get? i = some item →
        ["L", "G", "T", "L-G", "G-T", "L-T", "L-G-T"].contains
            (primaryTag item) = true →
        strSlice (item.text.getD "") mStart (mStop - 1) = mtext →
        (ex_removable items mStart mStop mtext = true ↔
          ∀ (j : Nat) (other : Item), items.get? j = some other → j ≠ i →
            ["L", "G", "T", "L-G", "G-T", "L-T", "L-G-T"].contains
                (primaryTag other) = true →
            (strSlice (other.text.getD "") mStart (mStop - 1) = mtext
             ∨ pyStrip (strSlice (other.text.getD "") mStart (mStop - 1)) = ""))) := by
  refine ⟨by decide, by decide, by decide, by decide, ?_⟩
  intro items i item mStart mStop mtext hget hrel hself
  simp only [primaryTag] at hrel
  unfold ex_removable
  rw [List.all_eq_true]
  constructor
  · intro hall j other hj hne hrelo
    simp only [primaryTag] at hrelo
    have hmem : other ∈ items := List.get?_mem hj
    have hval := hall other hmem
    simp only [hrelo, Bool.not_true, Bool.false_eq_true, if_false,
      Bool.or_eq_true, decide_eq_true_eq] at hval
    exact hval
  · intro hforall x hx
    obtain ⟨j, hj⟩ := List.mem_iff_get?.mp hx
    by_cases hji : j = i
    · subst hji
      rw [hget] at hj
      have hx2 : item = x := Option.some.inj hj
      subst hx2
      simp only [hrel, Bool.not_true, Bool.false_eq_true, if_false,
        Bool.or_eq_true, decide_eq_true_eq]
      exact Or.inl hself
    · by_cases hrelx : (["L", "G", "T", "L-G", "G-T", "L-T", "L-G-T"].contains
          ((get_tags x).headD "")) = true
      · have hd := hforall j x hj hji (by simpa [primaryTag] using hrelx)
        simp only [hrelx, Bool.not_true, Bool.false_eq_true, if_false,
          Bool.or_eq_true, decide_eq_true_eq]
        exact hd
      · simp only [Bool.not_eq_true] at hrelx
        simp only [hrelx, Bool.not_false, if_true]

/-- Witness for C5: the removability characterization applied at the
aligned example's source line and its `1.` match. -/
theorem remove_example_numbers_alignment_witness :
    ex_removable [exNumL, exNumG] 0 3 "1." = true :=
  (remove_example_numbers_alignment_check.2.2.2.2 [exNumL, exNumG] 0 exNumL 0 3 "1."
      (by decide) (by decide) (by decide)).mpr
    (fun j other hj hne _hrel => by
      match j with
      | 0 => exact absurd rfl hne
      | 1 =>
        have hoth : exNumG = other := Option.some.inj hj
        subst hoth
        exact Or.inl (by decide)
      | n + 2 => simp [List.get?] at hj)

/-! ## C2 -/

/-- Peeling one `Except` bind off a successful computation. -/
theorem except_ok_of_bind {ε α β : Type} (e : Except ε α) (f : α → Except ε β)
    (b : β) (h : (e >>= f) = .ok b) : ∃ a, e = .ok a ∧ f a = .ok b := by
  cases e with
  | error x => simp [Bind.bind, Except.bind] at h
  | ok a => exact ⟨a, rfl, by simpa [Bind.bind, Except.bind] using h⟩

/-- The first base-tier item of the C2 example. -/
def alignB1 : Item := { id := "b1", text := some "the", tag := "L", line := "1" }

/-- The second base-tier item of the C2 example (a continuation line that
`rejoin_continuations` merges into the first). -/
def alignB2 : Item := { id := "b2", text := some "dog ran", tag := "C", line := "2" }

/-- The single output item of the C2 example. -/
def alignOut : Item :=
  { id := "n1", text := some "the dog ran", tag := "L", line := "1 2",
    alignment := some "b1" }

/-- C2 counterexample: the single output item derives from both base
items `b1` and `b2` (its text is their merge and its `line` is the joined
provenance), yet its `alignment` is only `"b1"`, not the comma-join
`"b1,b2"` the claim requires for merged items: the pipeline assigns
`alignment = item.id` only after the rejoining stages have already merged
the items, so the second constituent's id is lost. -/
theorem normalize_items_alignment_cex :
    normalize_items ⟨[alignB1, alignB2], none, none⟩ "n" = .ok [alignOut]
    ∧ alignOut.text = some "the dog ran"
    ∧ alignOut.line = "1 2"
    ∧ alignOut.alignment = some "b1"
    ∧ alignOut.alignment ≠ some "b1,b2" := by
  refine ⟨by decide, by decide, by decide, by decide, by decide⟩

/-- C2 (amended): after `normalize_items(base_tier, norm_id)` succeeds,
the i-th output item (1-based) has id `norm_id` followed by the decimal
numeral `i`; each output item's `alignment` holds the id recorded at the
mid-pipeline alignment-assignment point, so an item merged during the
rejoining stages carries only the first constituent's pre-pipeline id (as
the concrete run shows), not the comma-join of all of them — only merges
performed after that point (dewrapping) comma-join the recorded ids. -/
theorem normalize_items_renumber_amended :
    (∀ (base : TierData) (norm_id : String) (res : List Item),
        normalize_items base norm_id = .ok res →
        ∀ (i : Nat) (h : i < res.length),
          (res.get ⟨i, h⟩).id = norm_id ++ toString (i + 1))
    ∧ normalize_items ⟨[alignB1, alignB2], none, none⟩ "n" = .ok [alignOut] := by
  constructor
  · intro base norm_id res hres i hi
    unfold normalize_items at hres
    obtain ⟨items1, _, hres⟩ := except_ok_of_bind _ _ _ hres
    obtain ⟨items2, _, hres⟩ := except_ok_of_bind _ _ _ hres
    obtain ⟨items3, _, hres⟩ := except_ok_of_bind _ _ _ hres
    have hres' : renumber norm_id 0
        (shift_left (unquote_translations items3)
          (some ["L", "G", "L-G", "L-T", "G-T", "L-G-T"])) = res := by
      simpa [pure, Except.pure] using hres
    subst hres'
    rw [renumber_get]
    rw [Nat.zero_add]
  · decide

/-- Witness for C2: the renumbering law applied to the concrete run. -/
theorem normalize_items_renumber_witness :
    (([alignOut] : List Item).get ⟨0, by decide⟩).id = "n" ++ toString (0 + 1) :=
  normalize_items_renumber_amended.1 ⟨[alignB1, alignB2], none, none⟩ "n"
    [alignOut] (by decide) 0 (by decide)

end Odin
